import Mathlib

/-
Verification development for the knowledge-graph service.

Shallow embedding of the core logic of the repository:
  * concept canonicalization and deterministic identity
    (services/nlp_service.py: _canonicalize_concept, _generate_concept_id),
  * concept extraction bookkeeping (_extract_concepts, _is_valid_concept),
  * co-occurrence relation weights (_extract_relations),
  * the graph-build merge loop and its statistics (api/graph.py:
    _build_knowledge_graph) over a model of the Neo4j MERGE store
    (services/neo4j_service.py),
  * the GraphSync state machine (services/mongodb_service.py:
    update_graph_sync),
  * bounded subgraph retrieval (api/graph.py: get_subgraph and
    services/neo4j_service.py: get_subgraph),
  * question answering and QA logging (api/qa.py: ask_question,
    services/nlp_service.py: answer_question and the answer generators).

Machine integers do not occur (Python ints are unbounded); the 32-bit
arithmetic inside MD5 is written with explicit reduction modulo 2^32.
Python float arithmetic in relation weights is modelled with exact
rationals.  External collaborators (spaCy pipeline output, the document
store, the graph store) are modelled as explicit inputs or as an explicit
store state, following the code that consumes them.
-/

/-! ### Python string primitives

ASCII behaviour of the `str` operations the code uses: `lower`, `strip`,
`split` (on runs of whitespace, dropping empties) and substring tests. -/

/-- Whitespace characters of Python `str.split` / `str.strip` / `\s`. -/
def isPySpace (c : Char) : Bool :=
  c == ' ' || c == '\t' || c == '\n' || c == '\r' || c == '\x0b' || c == '\x0c'

/-- Python `str.lower` (ASCII range, which is what `Char.toLower` lowers). -/
def pyLower (s : String) : String := ⟨s.data.map Char.toLower⟩

/-- Accumulating worker for `pyWords`: split into maximal non-space runs. -/
def pyWordsAux : List Char → List Char → List String
  | [], acc => if acc = [] then [] else [⟨acc⟩]
  | c :: rest, acc =>
    if isPySpace c then
      if acc = [] then pyWordsAux rest [] else ⟨acc⟩ :: pyWordsAux rest []
    else pyWordsAux rest (acc ++ [c])

/-- Python `str.split()` with no argument: words separated by whitespace
runs, no empty words. -/
def pyWords (s : String) : List String := pyWordsAux s.data []

/-- Python `str.strip()`. -/
def pyStrip (s : String) : String :=
  ⟨((s.data.dropWhile isPySpace).reverse.dropWhile isPySpace).reverse⟩

/-- One step of the naive substring matcher: does `needle` start `hay`? -/
def listStartsWith [DecidableEq α] : List α → List α → Bool
  | [], _ => true
  | _ :: _, [] => false
  | a :: as, b :: bs => decide (a = b) && listStartsWith as bs

/-- Does `needle` occur contiguously inside `hay`?  (Python `in` on `str`.) -/
def listContainsSub [DecidableEq α] (needle : List α) : List α → Bool
  | [] => listStartsWith needle []
  | b :: bs => listStartsWith needle (b :: bs) || listContainsSub needle bs

/-- Python `sub in s` for strings. -/
def strContains (s sub : String) : Bool := listContainsSub sub.data s.data

/-! ### MD5 (hashlib.md5), on byte lists, 32-bit words as `Nat % 2^32` -/

/-- Reduce to a 32-bit word. -/
def w32 (n : Nat) : Nat := n % 4294967296

/-- Reduce to a 64-bit word (MD5 length field). -/
def w64 (n : Nat) : Nat := n % 18446744073709551616

/-- 32-bit left rotation. -/
def rotl32 (x s : Nat) : Nat :=
  w32 (Nat.lor (Nat.shiftLeft x s) (Nat.shiftRight x (32 - s)))

/-- 32-bit bitwise complement (for arguments below 2^32). -/
def lnot32 (x : Nat) : Nat := Nat.xor x 4294967295

/-- MD5 per-round left-rotation amounts. -/
def mdS : List Nat :=
  [7, 12, 17, 22, 7, 12, 17, 22, 7, 12, 17, 22, 7, 12, 17, 22,
   5, 9, 14, 20, 5, 9, 14, 20, 5, 9, 14, 20, 5, 9, 14, 20,
   4, 11, 16, 23, 4, 11, 16, 23, 4, 11, 16, 23, 4, 11, 16, 23,
   6, 10, 15, 21, 6, 10, 15, 21, 6, 10, 15, 21, 6, 10, 15, 21]

/-- MD5 additive constants, floor(2^32 * abs(sin(i+1))). -/
def mdK : List Nat :=
  [0xd76aa478, 0xe8c7b756, 0x242070db, 0xc1bdceee,
   0xf57c0faf, 0x4787c62a, 0xa8304613, 0xfd469501,
   0x698098d8, 0x8b44f7af, 0xffff5bb1, 0x895cd7be,
   0x6b901122, 0xfd987193, 0xa679438e, 0x49b40821,
   0xf61e2562, 0xc040b340, 0x265e5a51, 0xe9b6c7aa,
   0xd62f105d, 0x02441453, 0xd8a1e681, 0xe7d3fbc8,
   0x21e1cde6, 0xc33707d6, 0xf4d50d87, 0x455a14ed,
   0xa9e3e905, 0xfcefa3f8, 0x676f02d9, 0x8d2a4c8a,
   0xfffa3942, 0x8771f681, 0x6d9d6122, 0xfde5380c,
   0xa4beea44, 0x4bdecfa9, 0xf6bb4b60, 0xbebfbc70,
   0x289b7ec6, 0xeaa127fa, 0xd4ef3085, 0x04881d05,
   0xd9d4d039, 0xe6db99e5, 0x1fa27cf8, 0xc4ac5665,
   0xf4292244, 0x432aff97, 0xab9423a7, 0xfc93a039,
   0x655b59c3, 0x8f0ccc92, 0xffeff47d, 0x85845dd1,
   0x6fa87e4f, 0xfe2ce6e0, 0xa3014314, 0x4e0811a1,
   0xf7537e82, 0xbd3af235, 0x2ad7d2bb, 0xeb86d391]

/-- MD5 round mixing function, by round index. -/
def md5F (i b c d : Nat) : Nat :=
  if i < 16 then Nat.lor (Nat.land b c) (Nat.land (lnot32 b) d)
  else if i < 32 then Nat.lor (Nat.land d b) (Nat.land (lnot32 d) c)
  else if i < 48 then Nat.xor (Nat.xor b c) d
  else Nat.xor c (Nat.lor b (lnot32 d))

/-- MD5 message-word index, by round index. -/
def md5G (i : Nat) : Nat :=
  if i < 16 then i
  else if i < 32 then (5 * i + 1) % 16
  else if i < 48 then (3 * i + 5) % 16
  else (7 * i) % 16

/-- `k` little-endian bytes of `n`. -/
def toLEBytes : Nat → Nat → List Nat
  | _, 0 => []
  | n, k + 1 => (n % 256) :: toLEBytes (n / 256) k

/-- Word `j` of a 64-byte chunk, little-endian. -/
def leWord (chunk : List Nat) (j : Nat) : Nat :=
  chunk.getD (4 * j) 0 + 256 * chunk.getD (4 * j + 1) 0 +
    65536 * chunk.getD (4 * j + 2) 0 + 16777216 * chunk.getD (4 * j + 3) 0

/-- One MD5 round on state (a, b, c, d). -/
def md5Round (chunk : List Nat) (st : Nat × Nat × Nat × Nat) (i : Nat) :
    Nat × Nat × Nat × Nat :=
  let f := w32 (md5F i st.2.1 st.2.2.1 st.2.2.2 + st.1 + mdK.getD i 0 +
    leWord chunk (md5G i))
  (st.2.2.2, w32 (st.2.1 + rotl32 f (mdS.getD i 0)), st.2.1, st.2.2.1)

/-- Process one 64-byte chunk. -/
def md5Chunk (st : Nat × Nat × Nat × Nat) (chunk : List Nat) :
    Nat × Nat × Nat × Nat :=
  let r := (List.range 64).foldl (md5Round chunk) st
  (w32 (st.1 + r.1), w32 (st.2.1 + r.2.1), w32 (st.2.2.1 + r.2.2.1),
   w32 (st.2.2.2 + r.2.2.2))

/-- MD5 padding: 0x80, zeros to 56 mod 64, 8-byte little-endian bit length. -/
def md5Pad (msg : List Nat) : List Nat :=
  msg ++ 128 :: (List.replicate ((119 - msg.length % 64) % 64) 0 ++
    toLEBytes (w64 (msg.length * 8)) 8)

/-- Split a (padded) byte list into 64-byte chunks. -/
def chunks64 (l : List Nat) : List (List Nat) :=
  if h : l = [] then [] else l.take 64 :: chunks64 (l.drop 64)
termination_by l.length
decreasing_by
  simp only [List.length_drop]
  have hl : 0 < l.length := List.length_pos.mpr h
  omega

/-- MD5 digest of a byte list: 16 bytes. -/
def md5Digest (msg : List Nat) : List Nat :=
  let r := (chunks64 (md5Pad msg)).foldl md5Chunk
    (0x67452301, 0xefcdab89, 0x98badcfe, 0x10325476)
  toLEBytes r.1 4 ++ toLEBytes r.2.1 4 ++ toLEBytes r.2.2.1 4 ++
    toLEBytes r.2.2.2 4

/-- The lowercase hex alphabet of `hexdigest`. -/
def hexDigits : String := "0123456789abcdef"

/-- Hex character of a nibble. -/
def hexDigitChar (n : Nat) : Char := hexDigits.data.getD (n % 16) '0'

/-- Two hex characters of a byte. -/
def byteHex (b : Nat) : List Char := [hexDigitChar (b / 16), hexDigitChar b]

/-- Hex characters of a byte list. -/
def hexChars : List Nat → List Char
  | [] => []
  | b :: bs => byteHex b ++ hexChars bs

/-- Python `hashlib.md5(s.encode("utf-8")).hexdigest()`. -/
def md5Hex (s : String) : String :=
  ⟨hexChars (md5Digest (s.toUTF8.toList.map UInt8.toNat))⟩

/-! ### Canonicalization and concept identity (nlp_service.py 190-203)

`_canonicalize_concept` lowercases, collapses whitespace
(`' '.join(text.strip().lower().split())`), then removes a leading
determiner (`^(the|a|an)\s+`) and a trailing corporate suffix
(`\s+(inc|corp|ltd|llc)$`).  On the whitespace-normalized string those
regexes exactly remove the first word when it is a determiner followed by
at least one more word, and the last word when it is a corporate suffix
preceded by at least one more word; the embedding works on the word
list. -/

def determiners : List String := ["the", "a", "an"]

def corpSuffixes : List String := ["inc", "corp", "ltd", "llc"]

/-- Effect of `re.sub(r"^(the|a|an)\s+", "", canonical)` on the word list. -/
def stripLeadingDeterminer : List String → List String
  | [] => []
  | w :: rest => if w ∈ determiners ∧ rest ≠ [] then rest else w :: rest

/-- Effect of `re.sub(r"\s+(inc|corp|ltd|llc)$", "", canonical)` on the
word list. -/
def stripTrailingCorpSuffix (ws : List String) : List String :=
  match ws.getLast? with
  | some w => if w ∈ corpSuffixes ∧ 2 ≤ ws.length then ws.dropLast else ws
  | none => ws

/-- `_canonicalize_concept` (nlp_service.py 190-199). -/
def canonicalizeConcept (text : String) : String :=
  String.intercalate " "
    (stripTrailingCorpSuffix (stripLeadingDeterminer (pyWords (pyLower text))))

/-- `_generate_concept_id` (nlp_service.py 201-203):
`hashlib.md5(canonical_key.encode("utf-8")).hexdigest()[:16]`. -/
def generateConceptId (canonicalKey : String) : String :=
  ⟨(md5Hex canonicalKey).data.take 16⟩

/-! ### ConceptCand extraction (nlp_service.py 50-108, 166-188)

The spaCy pipeline itself is an external collaborator: its output (entity
spans, noun-chunk spans, ranked keywords) is an explicit input, and the
embedding covers the validity filter, canonicalization, deduplication and
capping logic the service applies to that output. -/

/-- A spaCy span as consumed by `_extract_concepts`: surface text, character
offsets, and entity label (`ent.label_`; unused for noun chunks). -/
structure TextSpan where
  text : String
  start_char : Int
  end_char : Int
  label : String
  deriving DecidableEq, Repr

/-- A concept candidate dict as built by `_extract_concepts`. -/
structure ConceptCand where
  id : String
  label : String
  canonical_key : String
  ctype : String
  entity_label : String
  doc_id : String
  span_start : Int
  span_end : Int
  deriving DecidableEq, Repr

/-- Words that `_is_valid_concept` rejects outright. -/
def nonInformative : List String :=
  ["this", "that", "these", "those", "here", "there", "where", "when",
   "what", "how"]

/-- ASCII `\w` of the regexes in `_is_valid_concept`. -/
def isWordChar (c : Char) : Bool := c.isAlphanum || c == '_'

/-- `re.match(r"^[^\w\s]*$", text)`: every character is neither a word
character nor whitespace (an empty string also matches). -/
def matchesNonWordOnly (t : String) : Bool :=
  t.data.all (fun c => !isWordChar c && !isPySpace c)

/-- `re.match(r"^\d+$", text)`: nonempty and all digits. -/
def matchesDigitsOnly (t : String) : Bool :=
  !t.data.isEmpty && t.data.all (·.isDigit)

/-- `_is_valid_concept` (nlp_service.py 166-188).  The spaCy stop-word set
is an external resource and is passed in. -/
def isValidConcept (stopWords : List String) (text : String) : Bool :=
  let t := pyStrip text
  if t.length < 3 ∨ 100 < t.length then false
  else if (pyWords (pyLower t)).all (fun tok => tok ∈ stopWords) then false
  else if matchesNonWordOnly t || matchesDigitsOnly t then false
  else if pyLower t ∈ nonInformative then false
  else true

/-- Named-entity phase of `_extract_concepts` (lines 56-70): one fold step.
State is the (concepts, seen canonical keys) pair. -/
def entityStep (docId : String) (stopWords : List String)
    (acc : List ConceptCand × List String) (ent : TextSpan) :
    List ConceptCand × List String :=
  if isValidConcept stopWords ent.text then
    let key := canonicalizeConcept ent.text
    if key ∉ acc.2 then
      (acc.1 ++ [{ id := generateConceptId key, label := pyStrip ent.text,
                   canonical_key := key, ctype := "entity",
                   entity_label := ent.label, doc_id := docId,
                   span_start := ent.start_char, span_end := ent.end_char }],
       acc.2 ++ [key])
    else acc
  else acc

/-- Noun-chunk phase of `_extract_concepts` (lines 73-87): capped at
`max_concepts_per_doc = 200`. -/
def chunkStep (docId : String) (stopWords : List String)
    (acc : List ConceptCand × List String) (chunk : TextSpan) :
    List ConceptCand × List String :=
  if isValidConcept stopWords chunk.text then
    let key := canonicalizeConcept chunk.text
    if key ∉ acc.2 ∧ acc.1.length < 200 then
      (acc.1 ++ [{ id := generateConceptId key, label := pyStrip chunk.text,
                   canonical_key := key, ctype := "noun_phrase",
                   entity_label := "PHRASE", doc_id := docId,
                   span_start := chunk.start_char, span_end := chunk.end_char }],
       acc.2 ++ [key])
    else acc
  else acc

/-- Keyword phase of `_extract_concepts` (lines 91-106): `break` once the
cap is reached, no validity filter, spans are (-1, -1). -/
def keywordPhase (docId : String) :
    List String → List ConceptCand → List String → List ConceptCand
  | [], cs, _ => cs
  | kw :: rest, cs, seen =>
    if 200 ≤ cs.length then cs
    else
      let key := canonicalizeConcept kw
      if key ∉ seen then
        keywordPhase docId rest
          (cs ++ [{ id := generateConceptId key, label := kw,
                    canonical_key := key, ctype := "keyword",
                    entity_label := "KEYWORD", doc_id := docId,
                    span_start := -1, span_end := -1 }])
          (seen ++ [key])
      else keywordPhase docId rest cs seen

/-- `_extract_concepts` (nlp_service.py 50-108), with the spaCy entity
spans, noun-chunk spans and `_extract_keywords` output as inputs. -/
def extractConcepts (stopWords : List String) (ents chunks : List TextSpan)
    (keywords : List String) (docId : String) : List ConceptCand :=
  let s1 := ents.foldl (entityStep docId stopWords) ([], [])
  let s2 := chunks.foldl (chunkStep docId stopWords) s1
  keywordPhase docId keywords s2.1 s2.2

/-! ### Relations and co-occurrence weights (nlp_service.py 110-164) -/

/-- A relation dict as built by `_extract_relations`.  Python computes the
weight in float arithmetic; the embedding uses exact rationals, for which
the claimed order properties are the same. -/
structure RelationCand where
  source_id : String
  target_id : String
  relation_type : String
  weight : ℚ
  doc_id : String
  dependency : String
  deriving DecidableEq

/-- A spaCy sentence span (`doc.sents` element), by character offsets. -/
structure Sent where
  start_char : Int
  end_char : Int
  deriving DecidableEq, Repr

/-- `weight = max(0.1, 1.0 / (1 + distance / 100))` (nlp_service.py 153). -/
def coOccursWeight (distance : Nat) : ℚ :=
  max (1 / 10) (1 / (1 + (distance : ℚ) / 100))

/-- Concepts whose span lies fully inside the sentence
(nlp_service.py 140-143). -/
def sentenceConcepts (s : Sent) (concepts : List ConceptCand) : List ConceptCand :=
  concepts.filter
    (fun c => s.start_char ≤ c.span_start ∧ c.span_end ≤ s.end_char)

/-- All ordered pairs (i, j) with i < j, in loop order
(nlp_service.py 146-149). -/
def listPairs : List α → List (α × α)
  | [] => []
  | x :: xs => xs.map (fun y => (x, y)) ++ listPairs xs

/-- The CO_OCCURS relation emitted for one pair (nlp_service.py 151-162):
distance is `abs(concept1["span_start"] - concept2["span_start"])`. -/
def coOccursRelation (docId : String) (p : ConceptCand × ConceptCand) : RelationCand :=
  { source_id := p.1.id, target_id := p.2.id, relation_type := "CO_OCCURS",
    weight := coOccursWeight (p.1.span_start - p.2.span_start).natAbs,
    doc_id := docId, dependency := "co_occurrence" }

/-- Co-occurrence relations of one sentence (nlp_service.py 138-162). -/
def coOccursRelations (docId : String) (s : Sent) (concepts : List ConceptCand) :
    List RelationCand :=
  (listPairs (sentenceConcepts s concepts)).map (coOccursRelation docId)

/-! ### Graph store model (services/neo4j_service.py)

Node and relationship writes go through Cypher MERGE: create if absent by
identity, else update fields.  Node identity is the `id` property; edge
identity is the (source id, target id, relationship type) triple (the
relationship MERGE first has to MATCH both endpoint nodes, and returns no
row - hence `False` - when either is missing). -/

/-- Append if absent, modelling MERGE-by-identity. -/
def insertNew [DecidableEq α] (l : List α) (a : α) : List α :=
  if a ∈ l then l else l ++ [a]

/-- The graph store: concept node ids, document node ids, and edges as
(source, target, type) triples. -/
structure GraphStore where
  conceptIds : List String
  documentIds : List String
  edges : List (String × String × String)
  deriving DecidableEq, Repr

/-- The empty store. -/
def GraphStore.empty : GraphStore := ⟨[], [], []⟩

/-- `create_concept_node` (neo4j_service.py 47-70): MERGE by id; the query
always returns the node, so the call reports `true` whether it created or
merely matched. -/
def createConceptNode (g : GraphStore) (id : String) : GraphStore × Bool :=
  ({ g with conceptIds := insertNew g.conceptIds id }, true)

/-- `create_document_node` (neo4j_service.py 72-93). -/
def createDocumentNode (g : GraphStore) (id : String) : GraphStore × Bool :=
  ({ g with documentIds := insertNew g.documentIds id }, true)

/-- Is there a node (of either label) with this id? -/
def nodeExists (g : GraphStore) (id : String) : Bool :=
  id ∈ g.conceptIds || id ∈ g.documentIds

/-- `create_relationship` (neo4j_service.py 95-118): MATCH both endpoints,
MERGE the typed edge; no row (and `false`) when an endpoint is missing. -/
def createRelationship (g : GraphStore) (e : String × String × String) :
    GraphStore × Bool :=
  if nodeExists g e.1 && nodeExists g e.2.1 then
    ({ g with edges := insertNew g.edges e }, true)
  else (g, false)

/-! ### The graph build (api/graph.py 202-311)

`extract_concepts_and_relations` wraps the whole spaCy pipeline in
try/except; what the pipeline would produce (or the exception it would
raise) is the explicit `Except` input.  A job document carries its Mongo
id, whether the `content_text` field is present (a missing field raises
KeyError inside the per-document try of the build loop), and the pipeline
outcome for its content. -/

/-- `extract_concepts_and_relations` (nlp_service.py 31-48): any internal
exception is caught and turned into `([], [])`. -/
def extractConceptsAndRelations
    (pipeline : Except String (List ConceptCand × List RelationCand)) :
    List ConceptCand × List RelationCand :=
  match pipeline with
  | .ok res => res
  | .error _ => ([], [])

/-- One stored document as seen by the build loop. -/
structure JobDoc where
  docId : String
  source_uri : String
  content_hash : String
  contentPresent : Bool
  pipeline : Except String (List ConceptCand × List RelationCand)

/-- The stats dict of `_build_knowledge_graph` (api/graph.py 215-220). -/
structure BuildStats where
  nodes_created : Nat
  edges_created : Nat
  concepts_merged : Nat
  documents_processed : Nat
  deriving DecidableEq, Repr

/-- In-flight build state: the in-job `all_concepts` map (canonical_key to
accumulated doc ids, in insertion order), the graph store, the stats. -/
structure BuildState where
  allConcepts : List (String × List String)
  store : GraphStore
  stats : BuildStats
  deriving DecidableEq, Repr

/-- Concept handling inside the build loop (api/graph.py 243-279): merge
into the in-job map or create the node, then MERGE the MENTIONS edge. -/
def processConcept (docId : String) (st : BuildState) (c : ConceptCand) :
    BuildState :=
  let key := c.canonical_key
  let st1 :=
    if (st.allConcepts.find? (fun p => p.1 == key)).isSome then
      { st with
        allConcepts := st.allConcepts.map
          (fun p => if p.1 == key then (p.1, p.2 ++ [docId]) else p),
        stats := { st.stats with
          concepts_merged := st.stats.concepts_merged + 1 } }
    else
      let r := createConceptNode st.store c.id
      { st with
        allConcepts := st.allConcepts ++ [(key, [docId])],
        store := r.1,
        stats := if r.2 then
            { st.stats with nodes_created := st.stats.nodes_created + 1 }
          else st.stats }
  let r2 := createRelationship st1.store (docId, c.id, "MENTIONS")
  { st1 with
    store := r2.1,
    stats := if r2.2 then
        { st1.stats with edges_created := st1.stats.edges_created + 1 }
      else st1.stats }

/-- Relation handling inside the build loop (api/graph.py 282-295). -/
def processRelation (_docId : String) (st : BuildState) (r : RelationCand) :
    BuildState :=
  let r2 := createRelationship st.store (r.source_id, r.target_id, r.relation_type)
  { st with
    store := r2.1,
    stats := if r2.2 then
        { st.stats with edges_created := st.stats.edges_created + 1 }
      else st.stats }

/-- The per-document try block of the build loop (api/graph.py 226-302): a
missing content field raises before anything is written and the document
is skipped (`continue`); otherwise the document node is created, the
extractor runs, and concepts, relations and the processed counter are
applied in order. -/
def processDocument (st : BuildState) (d : JobDoc) : BuildState :=
  if d.contentPresent then
    let st0 := { st with store := (createDocumentNode st.store d.docId).1 }
    let ex := extractConceptsAndRelations d.pipeline
    let st1 := ex.1.foldl (processConcept d.docId) st0
    let st2 := ex.2.foldl (processRelation d.docId) st1
    { st2 with stats := { st2.stats with
        documents_processed := st2.stats.documents_processed + 1 } }
  else st

/-! ### GraphSync state machine (models.py, mongodb_service.py 176-197) -/

/-- `SyncStatus` (models.py 12-16). -/
inductive SyncStatus
  | pending
  | in_progress
  | completed
  | failed
  deriving DecidableEq, Repr

/-- The GraphSync record fields the claims are about. -/
structure SyncRecord where
  status : SyncStatus
  stats : BuildStats
  error : Option String
  deriving DecidableEq, Repr

/-- `update_graph_sync` (mongodb_service.py 176-197): always sets status;
sets stats when a stats dict is passed (the build passes a non-empty dict,
which is truthy); sets error only when the passed text is truthy, i.e.
non-empty. -/
def updateGraphSync (r : SyncRecord) (status : SyncStatus)
    (stats : Option BuildStats) (error : Option String) : SyncRecord :=
  { status := status,
    stats := match stats with | some s => s | none => r.stats,
    error := match error with
      | some e => if e = "" then r.error else some e
      | none => r.error }

/-- A freshly created sync record (mongodb_service.py 139-166): status
pending, zeroed stats, no error. -/
def freshSyncRecord : SyncRecord :=
  { status := .pending, stats := ⟨0, 0, 0, 0⟩, error := none }

/-- The legal forward transitions of the sync state machine. -/
def syncStepOk : SyncStatus → SyncStatus → Bool
  | .pending, .in_progress => true
  | .in_progress, .completed => true
  | .in_progress, .failed => true
  | _, _ => false

/-- Is a status terminal? -/
def syncTerminal : SyncStatus → Bool
  | .completed => true
  | .failed => true
  | _ => false

/-- `_build_knowledge_graph` (api/graph.py 202-311) on a fresh sync
record.  Fetching the job documents from the store may raise (the
representative failure point of the outer try); that outcome is the
`Except` input.  Per-document failures are swallowed by the inner try.
Returns the final sync record, the final store, and the list of
`update_graph_sync` calls made, in order. -/
def buildKnowledgeGraph
    (docsResult : Except String (List JobDoc)) (g0 : GraphStore) :
    SyncRecord × GraphStore ×
      List (SyncStatus × Option BuildStats × Option String) :=
  let r0 := freshSyncRecord
  let r1 := updateGraphSync r0 .in_progress none none
  match docsResult with
  | .error e =>
    (updateGraphSync r1 .failed none (some e), g0,
     [(.in_progress, none, none), (.failed, none, some e)])
  | .ok docs =>
    let stF := docs.foldl processDocument ⟨[], g0, ⟨0, 0, 0, 0⟩⟩
    (updateGraphSync r1 .completed (some stF.stats) none, stF.store,
     [(.in_progress, none, none), (.completed, some stF.stats, none)])

/-! ### Subgraph retrieval (api/graph.py 100-141, neo4j_service.py 150-254)

The endpoint caps `max_hops` at 3 and `max_nodes` at 200 (upper bounds
only).  The store query seeds from explicit concept ids, else from a
label/canonical_key substring match (Cypher CONTAINS, case sensitive),
else samples concepts that have a concept neighbour; it expands the
seeds up to `max_hops` in both directions (`*1..h` patterns match nothing
for h = 0, and a negative bound is a Cypher error, which the service
catches into an empty result, as is a negative LIMIT), and `LIMIT
max_nodes` bounds the returned rows. -/

/-- A stored concept row: id, label, canonical_key. -/
structure StoredConcept where
  id : String
  label : String
  canonical_key : String
  deriving DecidableEq, Repr

/-- The read-side graph shape used by retrieval and QA provenance. -/
structure NeoGraph where
  concepts : List StoredConcept
  edges : List (String × String × String)
  deriving DecidableEq, Repr

/-- Ids adjacent to `x` through any edge, in either direction. -/
def neighborIds (g : NeoGraph) (x : String) : List String :=
  g.edges.filterMap (fun e =>
    if e.1 = x then some e.2.1 else if e.2.1 = x then some e.1 else none)

/-- Concatenation of a list of lists. -/
def listJoin : List (List α) → List α
  | [] => []
  | l :: ls => l ++ listJoin ls

/-- Ids reachable from the seed ids in at most `k` hops (both directions),
the seeds included. -/
def reachIds (g : NeoGraph) : Nat → List String → List String
  | 0, seeds => seeds
  | k + 1, seeds =>
    let prev := reachIds g k seeds
    (prev ++ listJoin (prev.map (neighborIds g))).dedup

/-- Seed selection of `get_subgraph` (neo4j_service.py 154-197), following
Python truthiness: a present but empty concept_ids list falls through to
the query branch, an empty query to the sample branch. -/
def subgraphSeeds (g : NeoGraph) (conceptIds : Option (List String))
    (query : Option String) : List String :=
  let cids := conceptIds.getD []
  if cids ≠ [] then
    (g.concepts.filter (fun c => c.id ∈ cids)).map (fun c => c.id)
  else
    let q := query.getD ""
    if q ≠ "" then
      (g.concepts.filter (fun c =>
        strContains c.label q || strContains c.canonical_key q)).map
        (fun c => c.id)
    else
      (g.concepts.filter (fun c =>
        g.concepts.any (fun c2 =>
          c2.id ≠ c.id &&
          (⟨c.id, c2.id⟩ : String × String) ∈ g.edges.map
            (fun e => (e.1, e.2.1)) ||
          (c2.id, c.id) ∈ g.edges.map (fun e => (e.1, e.2.1))))).map
        (fun c => c.id)

/-- `get_subgraph` of the store (neo4j_service.py 150-254): node ids of
the result.  Negative hop or limit values make the interpolated Cypher
fail, which the except turns into an empty result. -/
def neoGetSubgraph (g : NeoGraph) (conceptIds : Option (List String))
    (query : Option String) (maxHops maxNodes : Int) : List String :=
  if maxHops < 0 ∨ maxNodes < 0 then []
  else
    (reachIds g maxHops.toNat (subgraphSeeds g conceptIds query)).take
      maxNodes.toNat

/-- The `max_hops` validation of the endpoint (api/graph.py 118-119):
upper bound only. -/
def clampHops (h : Int) : Int := if h > 3 then 3 else h

/-- The `max_nodes` validation of the endpoint (api/graph.py 120-121):
upper bound only. -/
def clampMaxNodes (n : Int) : Int := if n > 200 then 200 else n

/-- The subgraph endpoint (api/graph.py 100-141): clamp, then query. -/
def apiGetSubgraph (g : NeoGraph) (conceptIds : Option (List String))
    (query : Option String) (maxHops maxNodes : Int) : List String :=
  neoGetSubgraph g conceptIds query (clampHops maxHops) (clampMaxNodes maxNodes)

/-! ### Question answering (services/nlp_service.py 242-408, api/qa.py)

`answer_question` canonicalizes the question entities and noun chunks
(spaCy output, an explicit input here), collects graph nodes whose
canonicalized label contains - or is contained in - one of those keys,
and dispatches on keywords of the lowercased question to an answer
generator.  The subgraph passed in by the endpoint is the `graph_data`
argument. -/

/-- A node dict of the graph data handed to `answer_question`: subgraph
nodes carry id and label; `entity_label` is only present on nodes that
have it (`node.get("entity_label")` is None otherwise). -/
structure GNode where
  id : String
  label : String
  entity_label : Option String
  deriving DecidableEq, Repr

/-- An edge dict of the graph data (subgraph edges carry an id). -/
structure GEdge where
  id : String
  source : String
  target : String
  etype : String
  deriving DecidableEq, Repr

/-- The `graph_data` dict. -/
structure GraphData where
  nodes : List GNode
  edges : List GEdge
  deriving DecidableEq, Repr

/-- The node matching test of `answer_question` (nlp_service.py 263-267):
some question concept contains, or is contained in, the canonicalized
node label. -/
def canonicalMatch (questionConcepts : List String) (nodeLabel : String) :
    Bool :=
  let nc := canonicalizeConcept nodeLabel
  questionConcepts.any (fun k => strContains nc k || strContains k nc)

/-- `matching_nodes` (nlp_service.py 260-267), in node order. -/
def matchingNodes (questionConcepts : List String) (g : GraphData) :
    List GNode :=
  g.nodes.filter (fun n => canonicalMatch questionConcepts n.label)

/-- The fixed no-match answer (nlp_service.py 270). -/
def noRelevantAnswer : String :=
  "I couldn\x27t find any relevant information in the knowledge graph to answer your question."

/-- `_answer_count_question` (nlp_service.py 325-340). -/
def answerCountQuestion (matching : List GNode) (_g : GraphData) :
    String × List String × List String :=
  let evidenceNodes := matching.map (fun n => n.id)
  match matching with
  | [m] =>
    ("There is 1 concept matching your query: " ++ m.label, [m.id], [])
  | _ =>
    let count := matching.length
    let labels := (matching.take 5).map (fun n => n.label)
    let base := "There are " ++ toString count ++ " concepts matching your query"
    let ans := if count ≤ 5 then base ++ ": " ++ String.intercalate ", " labels
      else base ++ ". Some examples: " ++ String.intercalate ", " labels
    (ans, evidenceNodes, [])

/-- `_answer_definition_question` (nlp_service.py 299-323). -/
def answerDefinitionQuestion (matching : List GNode) (g : GraphData) :
    String × List String × List String :=
  match matching with
  | [] => ("No matching concepts found.", [], [])
  | primary :: _ =>
    let step := fun (acc : List String × List String × List String)
        (e : GEdge) =>
      if e.source = primary.id then
        match g.nodes.find? (fun n => n.id == e.target) with
        | some tn =>
          (acc.1 ++ [tn.label], acc.2.1 ++ [tn.id], acc.2.2 ++ [e.id])
        | none => acc
      else acc
    let r := g.edges.foldl step ([], [primary.id], [])
    let answer := if r.1 ≠ [] then
        primary.label ++ " is a concept that is related to: " ++
          String.intercalate ", " (r.1.take 5)
      else
        primary.label ++
          " is a concept in the knowledge graph, but I don\x27t have additional context about it."
    (answer, r.2.1, r.2.2)

/-- `_answer_location_question` (nlp_service.py 366-378). -/
def answerLocationQuestion (matching : List GNode) (_g : GraphData) :
    String × List String × List String :=
  let locationNodes := matching.filter (fun n =>
    match n.entity_label with
    | some l => l ∈ (["GPE", "LOC", "LOCATION"] : List String)
    | none => false)
  if locationNodes ≠ [] then
    ("Found these locations: " ++
       String.intercalate ", " ((locationNodes.take 3).map (fun n => n.label)),
     locationNodes.map (fun n => n.id), [])
  else
    ("No specific location information found for the matching concepts.",
     matching.map (fun n => n.id), [])

/-- The neighbour loop of `_answer_general_question` (nlp_service.py
389-401), with its `break` once three connected concepts are collected;
state is (connected labels, evidence node ids, evidence edge ids). -/
def generalLoop (primaryId : String) (nodes : List GNode) :
    List GEdge → List String → List String → List String →
      List String × List String × List String
  | [], cc, evN, evE => (cc, evN, evE)
  | e :: rest, cc, evN, evE =>
    if e.source = primaryId ∨ e.target = primaryId then
      let otherId := if e.source = primaryId then e.target else e.source
      let next := match nodes.find? (fun n => n.id == otherId) with
        | some other =>
          if other.id ∉ evN then
            (cc ++ [other.label], evN ++ [other.id], evE ++ [e.id])
          else (cc, evN, evE)
        | none => (cc, evN, evE)
      if 3 ≤ next.1.length then next
      else generalLoop primaryId nodes rest next.1 next.2.1 next.2.2
    else generalLoop primaryId nodes rest cc evN evE

/-- `_answer_general_question` (nlp_service.py 380-408). -/
def answerGeneralQuestion (matching : List GNode) (g : GraphData) :
    String × List String × List String :=
  match matching with
  | [] => ("I couldn\x27t find relevant information to answer your question.", [], [])
  | primary :: _ =>
    let r := generalLoop primary.id g.nodes g.edges [] [primary.id] []
    let answer := if r.1 ≠ [] then
        "Based on the knowledge graph, " ++ primary.label ++
          " is connected to: " ++ String.intercalate ", " r.1
      else
        "I found " ++ primary.label ++
          " in the knowledge graph, but it has limited connections."
    (answer, r.2.1, r.2.2)

/-- `_answer_relationship_question` (nlp_service.py 342-364). -/
def answerRelationshipQuestion (matching : List GNode) (g : GraphData) :
    String × List String × List String :=
  if matching.length < 2 then answerGeneralQuestion matching g
  else
    let evidenceNodes := matching.map (fun n => n.id)
    let step := fun (acc : List String × List String) (e : GEdge) =>
      if e.source ∈ evidenceNodes ∧ e.target ∈ evidenceNodes then
        let sl := ((matching.find? (fun n => n.id == e.source)).map
          (fun n => n.label)).getD ""
        let tl := ((matching.find? (fun n => n.id == e.target)).map
          (fun n => n.label)).getD ""
        (acc.1 ++ [sl ++ " -> " ++ tl], acc.2 ++ [e.id])
      else acc
    let r := g.edges.foldl step ([], [])
    let answer := if r.1 ≠ [] then
        "Found the following relationships: " ++
          String.intercalate "; " (r.1.take 3)
      else
        "The concepts " ++
          String.intercalate ", " ((matching.take 3).map (fun n => n.label)) ++
          " appear in the knowledge graph but don\x27t have direct relationships."
    (answer, evidenceNodes, r.2)

/-- Keyword lists of the `_generate_answer` dispatch
(nlp_service.py 283-297), in source order. -/
def definitionWords : List String := ["what is", "what are", "define", "definition"]

def countWords : List String := ["how many", "count", "number"]

def relationshipWords : List String := ["related", "connected", "associated"]

def locationWords : List String := ["where", "location"]

/-- `_generate_answer` (nlp_service.py 283-297): first keyword list that
matches the lowercased question text wins. -/
def generateAnswer (questionText : String) (matching : List GNode)
    (g : GraphData) : String × List String × List String :=
  let qt := pyLower questionText
  if definitionWords.any (fun w => strContains qt w) then
    answerDefinitionQuestion matching g
  else if countWords.any (fun w => strContains qt w) then
    answerCountQuestion matching g
  else if relationshipWords.any (fun w => strContains qt w) then
    answerRelationshipQuestion matching g
  else if locationWords.any (fun w => strContains qt w) then
    answerLocationQuestion matching g
  else answerGeneralQuestion matching g

/-- `answer_question` (nlp_service.py 242-281).  `questionConcepts` is the
canonicalized entity/noun-chunk list spaCy produces for the lowercased
question; the question text itself is lowered before processing
(`self.nlp(question.lower())`). -/
def answerQuestion (questionConcepts : List String) (question : String)
    (g : GraphData) : String × List String × List String :=
  let matching := matchingNodes questionConcepts g
  if matching = [] then (noRelevantAnswer, [], [])
  else generateAnswer (pyLower question) matching g

/-! ### The QA endpoint (api/qa.py 17-140, 215-257) -/

/-- One QA log record (the fields the claims are about; `log_qa_interaction`
appends exactly one such record per call). -/
structure QALogEntry where
  question : String
  answer_text : Option String
  status : String
  deriving DecidableEq, Repr

/-- `_get_document_ids_from_evidence` (api/qa.py 215-239): for up to 10
evidence nodes, follow MENTIONS edges in the store to the document on the
other side, deduplicating, capped at 20. -/
def getDocumentIdsFromEvidence (store : NeoGraph)
    (evidenceNodeIds : List String) : List String :=
  if evidenceNodeIds = [] then []
  else
    let step := fun (acc : List String) (nodeId : String) =>
      let mentionEdges := store.edges.filter (fun e =>
        (e.1 == nodeId || e.2.1 == nodeId) && e.2.2 == "MENTIONS")
      mentionEdges.foldl (fun acc2 e =>
        let docId := if e.2.1 = nodeId then e.1 else e.2.1
        if docId ∉ acc2 then acc2 ++ [docId] else acc2) acc
    ((evidenceNodeIds.take 10).foldl step []).take 20

/-- The response body of `/qa/ask` (success paths return no error key). -/
structure QAResponse where
  answer : String
  node_ids : List String
  edge_ids : List String
  document_ids : List String
  isError : Bool
  deriving DecidableEq, Repr

/-- The `/qa/ask` endpoint (api/qa.py 17-140) after validation, on the
graph data retrieved for the question: either the early no-data reply or
the `answer_question` reply, in both cases logging exactly one record
with status ok. -/
def askQuestion (logs : List QALogEntry) (questionConcepts : List String)
    (question : String) (graphData : GraphData) (store : NeoGraph) :
    QAResponse × List QALogEntry :=
  if graphData.nodes = [] then
    ({ answer := noRelevantAnswer, node_ids := [], edge_ids := [],
       document_ids := [], isError := false },
     logs ++ [{ question := question, answer_text := some noRelevantAnswer,
                status := "ok" }])
  else
    let r := answerQuestion questionConcepts question graphData
    let docIds := getDocumentIdsFromEvidence store r.2.1
    ({ answer := r.1, node_ids := r.2.1, edge_ids := r.2.2,
       document_ids := docIds, isError := false },
     logs ++ [{ question := question, answer_text := some r.1,
                status := "ok" }])

/-! ### Auxiliary encodings and concrete instances

`hexIndexFin`/`idCode` encode a concept id (16 lowercase hex characters)
as a function `Fin 16 → Fin 16`; the encoding is faithful on id strings
and its codomain is finite, which is what the collision argument for
truncated ids needs.  The remaining definitions are the concrete graphs,
documents and build states that witnesses and counterexamples evaluate. -/

/-- Index of a character in the hex alphabet, as an element of `Fin 16`. -/
def hexIndexFin (c : Char) : Fin 16 :=
  ⟨hexDigits.data.indexOf c % 16, Nat.mod_lt _ (by norm_num)⟩

/-- A concept id, read off as 16 hex-alphabet indices. -/
def idCode (k : String) : Fin 16 → Fin 16 :=
  fun i => hexIndexFin ((generateConceptId k).data.getD i '0')

/-- The family of keys z…z (length n + 3): valid keyword inputs that
canonicalize to themselves. -/
def zKey (n : Nat) : String := ⟨List.replicate (n + 3) 'z'⟩

/-- Three concepts, two edges: the graph of the count-question
counterexample. -/
def cxGraphData : GraphData :=
  { nodes := [{ id := "c1", label := "concepts", entity_label := none },
              { id := "c2", label := "beta", entity_label := none },
              { id := "c3", label := "gamma", entity_label := none }],
    edges := [{ id := "e1", source := "c1", target := "c2",
                etype := "CO_OCCURS" },
              { id := "e2", source := "c2", target := "c3",
                etype := "CO_OCCURS" }] }

/-- Two nodes matching the word alpha: the count-question witness graph. -/
def wGraphData : GraphData :=
  { nodes := [{ id := "n1", label := "alpha sky", entity_label := none },
              { id := "n2", label := "alpha sea", entity_label := none }],
    edges := [] }

/-- One unrelated node: the no-match witness graph. -/
def qaNoMatchGraph : GraphData :=
  { nodes := [{ id := "n1", label := "beta", entity_label := none }],
    edges := [] }

/-- An empty provenance store. -/
def emptyNeoGraph : NeoGraph := { concepts := [], edges := [] }

/-- A concept candidate of the successful document. -/
def conceptAlpha : ConceptCand :=
  { id := "i1", label := "Alpha", canonical_key := "alpha", ctype := "entity",
    entity_label := "ORG", doc_id := "d1", span_start := 0, span_end := 5 }

/-- A successfully analyzed document. -/
def docOkW : JobDoc :=
  { docId := "d1", source_uri := "", content_hash := "h1",
    contentPresent := true, pipeline := .ok ([conceptAlpha], []) }

/-- A document whose spaCy pipeline raises inside the extractor. -/
def docExtractFailW : JobDoc :=
  { docId := "d2", source_uri := "", content_hash := "h2",
    contentPresent := true, pipeline := .error "boom" }

/-- A document whose content field is missing, raising in the build loop
before extraction. -/
def docSkipW : JobDoc :=
  { docId := "d3", source_uri := "", content_hash := "h3",
    contentPresent := false, pipeline := .error "KeyError" }

/-- A build state that has already seen canonical key alpha. -/
def mergeStateW : BuildState :=
  { allConcepts := [("alpha", ["d1"])],
    store := { conceptIds := ["i1"], documentIds := ["d1"], edges := [] },
    stats := { nodes_created := 1, edges_created := 1, concepts_merged := 0,
               documents_processed := 1 } }

/-- A repeat candidate with the already-seen canonical key. -/
def mergeConceptW : ConceptCand :=
  { id := "i1", label := "alpha", canonical_key := "alpha", ctype := "entity",
    entity_label := "ORG", doc_id := "d9", span_start := 4, span_end := 9 }

/-- A two-concept store for the subgraph witness. -/
def subgraphStoreW : NeoGraph :=
  { concepts := [{ id := "a", label := "A", canonical_key := "a" },
                 { id := "b", label := "B", canonical_key := "b" }],
    edges := [("a", "b", "CO_OCCURS")] }

/-- A sentence span for the co-occurrence witness. -/
def sentW : Sent := { start_char := 0, end_char := 100 }

/-- Second concept inside the witness sentence, ten characters away. -/
def conceptBeta : ConceptCand :=
  { id := "i2", label := "Beta", canonical_key := "beta", ctype := "entity",
    entity_label := "ORG", doc_id := "d1", span_start := 10, span_end := 15 }

/-! ### Helper lemmas -/

/-- A needle starts any list it prefixes, with junk appended. -/
theorem listStartsWith_append {α} [DecidableEq α] (n l t : List α)
    (h : listStartsWith n l = true) : listStartsWith n (l ++ t) = true := by
  induction n generalizing l with
  | nil => simp [listStartsWith]
  | cons a as ih =>
    cases l with
    | nil => simp [listStartsWith] at h
    | cons b bs =>
      simp only [listStartsWith, Bool.and_eq_true, decide_eq_true_eq] at h
      simp only [List.cons_append, listStartsWith, Bool.and_eq_true,
        decide_eq_true_eq]
      exact ⟨h.1, ih bs h.2⟩

/-- A needle starts itself followed by anything. -/
theorem listStartsWith_self {α} [DecidableEq α] (n t : List α) :
    listStartsWith n (n ++ t) = true := by
  induction n with
  | nil => simp [listStartsWith]
  | cons a as ih => simp [listStartsWith, ih]

/-- Starting a list implies occurring in it. -/
theorem listContainsSub_of_startsWith {α} [DecidableEq α] (n l : List α)
    (h : listStartsWith n l = true) : listContainsSub n l = true := by
  cases l with
  | nil => simpa [listContainsSub] using h
  | cons b bs => simp [listContainsSub, h]

/-- Occurring in the tail implies occurring in the list. -/
theorem listContainsSub_cons {α} [DecidableEq α] (n : List α) (b : α)
    (l : List α) (h : listContainsSub n l = true) :
    listContainsSub n (b :: l) = true := by
  simp [listContainsSub, h]

/-- Occurrence is preserved by prepending. -/
theorem listContainsSub_append_left {α} [DecidableEq α] (s n l : List α)
    (h : listContainsSub n l = true) : listContainsSub n (s ++ l) = true := by
  induction s with
  | nil => simpa using h
  | cons b bs ih => exact listContainsSub_cons n b (bs ++ l) ih

/-- Occurrence is preserved by appending. -/
theorem listContainsSub_append_right {α} [DecidableEq α] (n l t : List α)
    (h : listContainsSub n l = true) : listContainsSub n (l ++ t) = true := by
  induction l with
  | nil =>
    cases n with
    | nil =>
      cases t with
      | nil => simp [listContainsSub, listStartsWith]
      | cons c cs =>
        exact listContainsSub_of_startsWith _ _ (listStartsWith_self [] _)
    | cons a as => simp [listContainsSub, listStartsWith] at h
  | cons b bs ih =>
    simp only [listContainsSub, Bool.or_eq_true] at h
    rcases h with h | h
    · exact listContainsSub_of_startsWith _ _
        (by simpa using listStartsWith_append n (b :: bs) t h)
    · exact listContainsSub_cons n b (bs ++ t) (ih h)

/-- A needle occurs in mid position of an append. -/
theorem listContainsSub_mid {α} [DecidableEq α] (s n t : List α) :
    listContainsSub n (s ++ n ++ t) = true := by
  have h1 : listContainsSub n (n ++ t) = true :=
    listContainsSub_of_startsWith _ _ (listStartsWith_self n t)
  simpa [List.append_assoc] using listContainsSub_append_left s n (n ++ t) h1

/-- `toLEBytes` produces exactly the requested number of bytes. -/
theorem toLEBytes_length (n k : Nat) : (toLEBytes n k).length = k := by
  induction k generalizing n with
  | zero => simp [toLEBytes]
  | succ k ih => simp [toLEBytes, ih]

/-- The MD5 digest is 16 bytes. -/
theorem md5Digest_length (msg : List Nat) : (md5Digest msg).length = 16 := by
  simp [md5Digest, toLEBytes_length]

/-- Hex encoding doubles the length. -/
theorem hexChars_length (l : List Nat) :
    (hexChars l).length = 2 * l.length := by
  induction l with
  | nil => simp [hexChars]
  | cons b bs ih => simp [hexChars, byteHex, ih]; omega

/-- Every produced hex character is in the hex alphabet. -/
theorem hexDigitChar_mem (n : Nat) : hexDigitChar n ∈ hexDigits.data := by
  have h : n % 16 = 0 ∨ n % 16 = 1 ∨ n % 16 = 2 ∨ n % 16 = 3 ∨ n % 16 = 4 ∨
      n % 16 = 5 ∨ n % 16 = 6 ∨ n % 16 = 7 ∨ n % 16 = 8 ∨ n % 16 = 9 ∨
      n % 16 = 10 ∨ n % 16 = 11 ∨ n % 16 = 12 ∨ n % 16 = 13 ∨ n % 16 = 14 ∨
      n % 16 = 15 := by omega
  unfold hexDigitChar
  rcases h with h | h | h | h | h | h | h | h | h | h | h | h | h | h | h | h <;>
    rw [h] <;> decide

/-- Characters of the hex encoding lie in the hex alphabet. -/
theorem hexChars_mem (l : List Nat) (c : Char) (h : c ∈ hexChars l) :
    c ∈ hexDigits.data := by
  induction l with
  | nil => simp [hexChars] at h
  | cons b bs ih =>
    simp only [hexChars, byteHex, List.cons_append, List.mem_cons,
      List.nil_append] at h
    rcases h with h | h | h
    · rw [h]; exact hexDigitChar_mem _
    · rw [h]; exact hexDigitChar_mem _
    · exact ih h

/-- The hexdigest has 32 characters. -/
theorem md5Hex_data_length (s : String) : (md5Hex s).data.length = 32 := by
  show (hexChars (md5Digest _)).length = 32
  rw [hexChars_length, md5Digest_length]

/-- A concept id has exactly 16 characters. -/
theorem generateConceptId_length (k : String) :
    (generateConceptId k).data.length = 16 := by
  show ((md5Hex k).data.take 16).length = 16
  rw [List.length_take, md5Hex_data_length]
  decide

/-- Every character of a concept id is a lowercase hex digit. -/
theorem generateConceptId_mem_hex (k : String) (c : Char)
    (h : c ∈ (generateConceptId k).data) : c ∈ hexDigits.data := by
  have h2 : c ∈ (md5Hex k).data := List.take_subset 16 _ h
  exact hexChars_mem _ c h2

/-! ### C1 - canonical identity is deterministic -/

/-- C1: two texts with the same canonical form (in particular the same
surface text canonicalized twice) get the same concept id; the id is the
MD5 hexdigest of the canonical_key truncated to 16 characters, all of
them lowercase hex digits - a pure function of the canonical_key alone,
hence independent of document, run, or process. -/
theorem canonical_identity_deterministic (t1 t2 : String)
    (h : canonicalizeConcept t1 = canonicalizeConcept t2) :
    generateConceptId (canonicalizeConcept t1) =
      generateConceptId (canonicalizeConcept t2) ∧
    generateConceptId (canonicalizeConcept t1) =
      ⟨(md5Hex (canonicalizeConcept t1)).data.take 16⟩ ∧
    (generateConceptId (canonicalizeConcept t1)).data.length = 16 ∧
    ∀ c ∈ (generateConceptId (canonicalizeConcept t1)).data,
      c ∈ hexDigits.data := by
  exact ⟨by rw [h], rfl, generateConceptId_length _,
    fun c hc => generateConceptId_mem_hex _ c hc⟩

/-- Witness for C1: two surface spellings of the same concept. -/
theorem canonical_identity_deterministic_witness :
    canonicalizeConcept "The  Acme   Corp" = canonicalizeConcept " the acme corp " ∧
    generateConceptId (canonicalizeConcept "The  Acme   Corp") =
      generateConceptId (canonicalizeConcept " the acme corp ") :=
  ⟨by decide, (canonical_identity_deterministic _ _ (by decide)).1⟩

/-! ### C2 - in-job merge and idempotent upserts -/

/-- Inserted elements are present. -/
theorem mem_insertNew {α} [DecidableEq α] (l : List α) (a : α) :
    a ∈ insertNew l a := by
  unfold insertNew
  split
  · assumption
  · simp

/-- Re-inserting the same identity is a no-op. -/
theorem insertNew_idem {α} [DecidableEq α] (l : List α) (a : α) :
    insertNew (insertNew l a) a = insertNew l a := by
  rw [show insertNew (insertNew l a) a =
    if a ∈ insertNew l a then insertNew l a else insertNew l a ++ [a] from rfl]
  rw [if_pos (mem_insertNew l a)]

/-- Relationship MERGE does not touch concept nodes. -/
theorem createRelationship_conceptIds (g : GraphStore)
    (e : String × String × String) :
    (createRelationship g e).1.conceptIds = g.conceptIds := by
  unfold createRelationship
  split <;> rfl

/-- Relationship MERGE does not touch document nodes. -/
theorem createRelationship_documentIds (g : GraphStore)
    (e : String × String × String) :
    (createRelationship g e).1.documentIds = g.documentIds := by
  unfold createRelationship
  split <;> rfl

/-- Concept-node MERGE is idempotent on the store. -/
theorem createConceptNode_idem (g : GraphStore) (id : String) :
    (createConceptNode (createConceptNode g id).1 id).1 =
      (createConceptNode g id).1 := by
  simp [createConceptNode, insertNew_idem]

/-- Relationship MERGE is idempotent on the store. -/
theorem createRelationship_idem (g : GraphStore)
    (e : String × String × String) :
    (createRelationship (createRelationship g e).1 e).1 =
      (createRelationship g e).1 := by
  by_cases h : (nodeExists g e.1 && nodeExists g e.2.1) = true
  · have hfirst : createRelationship g e =
        ({ g with edges := insertNew g.edges e }, true) := by
      unfold createRelationship
      rw [if_pos h]
    have h2 : (nodeExists { g with edges := insertNew g.edges e } e.1 &&
        nodeExists { g with edges := insertNew g.edges e } e.2.1) = true := h
    rw [hfirst]
    show (createRelationship { g with edges := insertNew g.edges e } e).1 =
      { g with edges := insertNew g.edges e }
    unfold createRelationship
    rw [if_pos h2]
    simp [insertNew_idem]
  · have hfirst : createRelationship g e = (g, false) := by
      unfold createRelationship
      rw [if_neg h]
    rw [hfirst]
    show (createRelationship g e).1 = g
    rw [hfirst]

/-- C2: during one build, a candidate whose canonical_key the job has
already seen increments concepts_merged, creates no node, and leaves
nodes_created unchanged; and re-merging an identical concept id or edge
triple leaves the store exactly as after the first merge (idempotent
upserts). -/
theorem merge_repeat_key_and_idempotence (st : BuildState) (c : ConceptCand)
    (docId : String)
    (h : (st.allConcepts.find? (fun p => p.1 == c.canonical_key)).isSome =
      true) :
    (processConcept docId st c).stats.concepts_merged =
      st.stats.concepts_merged + 1 ∧
    (processConcept docId st c).stats.nodes_created =
      st.stats.nodes_created ∧
    (processConcept docId st c).store.conceptIds = st.store.conceptIds ∧
    (processConcept docId st c).store.documentIds = st.store.documentIds ∧
    (∀ (g : GraphStore) (id : String),
      (createConceptNode (createConceptNode g id).1 id).1 =
        (createConceptNode g id).1) ∧
    (∀ (g : GraphStore) (e : String × String × String),
      (createRelationship (createRelationship g e).1 e).1 =
        (createRelationship g e).1) := by
  refine ⟨?_, ?_, ?_, ?_, createConceptNode_idem, createRelationship_idem⟩ <;>
    simp only [processConcept, h, if_true] <;>
    [skip; skip; rw [createRelationship_conceptIds];
     rw [createRelationship_documentIds]] <;>
    split <;> rfl

/-- Witness for C2 at a concrete repeated canonical key. -/
theorem merge_repeat_key_and_idempotence_witness :
    (processConcept "d9" mergeStateW mergeConceptW).stats.concepts_merged =
      mergeStateW.stats.concepts_merged + 1 ∧
    (processConcept "d9" mergeStateW mergeConceptW).stats.nodes_created =
      mergeStateW.stats.nodes_created :=
  ⟨(merge_repeat_key_and_idempotence mergeStateW mergeConceptW "d9"
      (by decide)).1,
   (merge_repeat_key_and_idempotence mergeStateW mergeConceptW "d9"
      (by decide)).2.1⟩

/-! ### C3 - subgraph request clamping and bounds -/

/-- The endpoint clamp on hops is exactly an upper-bound min. -/
theorem clampHops_eq_min (h : Int) : clampHops h = min h 3 := by
  unfold clampHops
  split <;> omega

/-- The endpoint clamp on the node cap is exactly an upper-bound min. -/
theorem clampMaxNodes_eq_min (n : Int) : clampMaxNodes n = min n 200 := by
  unfold clampMaxNodes
  split <;> omega

/-- C3 counterexample: the endpoint clamps only from above, so a hop
limit of -1 is not brought into [0, 3] and a node cap of 0 (or a negative
one) is not brought into [1, 200]. -/
theorem subgraph_clamp_counterexample :
    clampHops (-1) = -1 ∧ ¬(0 ≤ clampHops (-1)) ∧
    clampMaxNodes 0 = 0 ∧ ¬(1 ≤ clampMaxNodes 0) ∧
    clampMaxNodes (-7) = -7 := by decide

/-- C3 amended: hop limits above 3 and node caps above 200 are reduced to
3 and 200, values at or below pass through unchanged (no lower clamp);
the returned node count is at most 200 and at most any non-negative
requested cap; every returned node is reachable from the seed set within
min(requested hops, 3) hops. -/
theorem subgraph_bounds (g : NeoGraph) (cids : Option (List String))
    (q : Option String) (mh mn : Int) :
    clampHops mh ≤ 3 ∧ clampMaxNodes mn ≤ 200 ∧
    (mh ≤ 3 → clampHops mh = mh) ∧ (mn ≤ 200 → clampMaxNodes mn = mn) ∧
    (apiGetSubgraph g cids q mh mn).length ≤ 200 ∧
    (0 ≤ mn → ((apiGetSubgraph g cids q mh mn).length : Int) ≤ mn) ∧
    ∀ x ∈ apiGetSubgraph g cids q mh mn,
      x ∈ reachIds g (min mh 3).toNat (subgraphSeeds g cids q) := by
  have hcH := clampHops_eq_min mh
  have hcN := clampMaxNodes_eq_min mn
  have hlen : (apiGetSubgraph g cids q mh mn).length ≤
      (clampMaxNodes mn).toNat := by
    unfold apiGetSubgraph neoGetSubgraph
    split
    · simp
    · simp [List.length_take_le]
  have hsub : ∀ x ∈ apiGetSubgraph g cids q mh mn,
      x ∈ reachIds g (clampHops mh).toNat (subgraphSeeds g cids q) := by
    unfold apiGetSubgraph neoGetSubgraph
    split
    · simp
    · intro x hx
      exact List.take_subset _ _ hx
  refine ⟨by omega, by omega, fun h => by omega, fun h => by omega, ?_, ?_,
    by rw [← hcH]; exact hsub⟩
  · omega
  · intro h0
    omega

/-- Witness for C3 at an in-range request. -/
theorem subgraph_bounds_witness :
    clampHops 2 = 2 ∧ clampMaxNodes 50 = 50 ∧
    ((apiGetSubgraph subgraphStoreW none none 2 50).length : Int) ≤ 50 :=
  ⟨(subgraph_bounds subgraphStoreW none none 2 50).2.2.1 (by decide),
   (subgraph_bounds subgraphStoreW none none 2 50).2.2.2.1 (by decide),
   (subgraph_bounds subgraphStoreW none none 2 50).2.2.2.2.2.1 (by decide)⟩

/-! ### C4 - co-occurrence weights -/

/-- Both components of every emitted pair come from the sentence list. -/
theorem listPairs_mem {α} (l : List α) (p : α × α) (h : p ∈ listPairs l) :
    p.1 ∈ l ∧ p.2 ∈ l := by
  induction l with
  | nil => simp [listPairs] at h
  | cons x xs ih =>
    simp only [listPairs, List.mem_append, List.mem_map] at h
    rcases h with ⟨y, hy, hp⟩ | h
    · rw [← hp]
      exact ⟨List.mem_cons_self _ _, List.mem_cons_of_mem _ hy⟩
    · have := ih h
      exact ⟨List.mem_cons_of_mem _ this.1, List.mem_cons_of_mem _ this.2⟩

/-- The weight formula never drops below 1/10. -/
theorem coOccursWeight_floor (d : Nat) : 1 / 10 ≤ coOccursWeight d :=
  le_max_left _ _

/-- The weight formula is non-increasing in the distance. -/
theorem coOccursWeight_antitone (d1 d2 : Nat) (h : d1 ≤ d2) :
    coOccursWeight d2 ≤ coOccursWeight d1 := by
  unfold coOccursWeight
  have h1 : (0 : ℚ) < 1 + (d1 : ℚ) / 100 := by positivity
  have h2 : 1 + (d1 : ℚ) / 100 ≤ 1 + (d2 : ℚ) / 100 := by
    have : (d1 : ℚ) ≤ (d2 : ℚ) := by exact_mod_cast h
    linarith
  exact max_le_max le_rfl (one_div_le_one_div_of_le h1 h2)

/-- C4: every CO_OCCURS relation emitted for a sentence pairs two concepts
whose spans lie inside the sentence and carries weight
max(0.1, 1 / (1 + distance / 100)) for the distance between their span
starts; the weight formula is non-increasing in distance and never below
0.1. -/
theorem cooccurs_weight_spec (docId : String) (s : Sent)
    (concepts : List ConceptCand) :
    (∀ r ∈ coOccursRelations docId s concepts,
      r.relation_type = "CO_OCCURS" ∧ 1 / 10 ≤ r.weight ∧
      ∃ c1 c2, c1 ∈ sentenceConcepts s concepts ∧
        c2 ∈ sentenceConcepts s concepts ∧
        r.weight = max (1 / 10)
          (1 / (1 + (((c1.span_start - c2.span_start).natAbs : ℚ)) / 100))) ∧
    (∀ d1 d2 : Nat, d1 ≤ d2 → coOccursWeight d2 ≤ coOccursWeight d1) ∧
    (∀ d : Nat, 1 / 10 ≤ coOccursWeight d) := by
  refine ⟨?_, coOccursWeight_antitone, coOccursWeight_floor⟩
  intro r hr
  simp only [coOccursRelations, List.mem_map] at hr
  obtain ⟨p, hp, hr⟩ := hr
  have hmem := listPairs_mem _ p hp
  subst hr
  exact ⟨rfl, coOccursWeight_floor _,
    p.1, p.2, hmem.1, hmem.2, rfl⟩

/-- Witness for C4: concrete distances and a concrete emitted relation. -/
theorem cooccurs_weight_spec_witness :
    coOccursWeight 50 ≤ coOccursWeight 0 ∧ 1 / 10 ≤ coOccursWeight 1000 ∧
    1 / 10 ≤ (coOccursRelation "d1" (conceptAlpha, conceptBeta)).weight :=
  ⟨(cooccurs_weight_spec "d1" sentW []).2.1 0 50 (by decide),
   (cooccurs_weight_spec "d1" sentW []).2.2 1000,
   ((cooccurs_weight_spec "d1" sentW [conceptAlpha, conceptBeta]).1
      (coOccursRelation "d1" (conceptAlpha, conceptBeta))
      (by rw [show coOccursRelations "d1" sentW [conceptAlpha, conceptBeta] =
          [coOccursRelation "d1" (conceptAlpha, conceptBeta)] from rfl]
          exact List.mem_singleton_self _)).2.1⟩

/-! ### C5 - partial-batch failure behaviour of the build -/

/-- A document whose content field is missing is skipped entirely. -/
theorem processDocument_skip (st : BuildState) (d : JobDoc)
    (h : d.contentPresent = false) : processDocument st d = st := by
  simp [processDocument, h]

/-- Concept processing never touches the documents_processed counter. -/
theorem processConcept_docsProcessed (docId : String) (st : BuildState)
    (c : ConceptCand) :
    (processConcept docId st c).stats.documents_processed =
      st.stats.documents_processed := by
  simp only [processConcept]
  repeat' split
  all_goals rfl

/-- Relation processing never touches the documents_processed counter. -/
theorem processRelation_docsProcessed (docId : String) (st : BuildState)
    (r : RelationCand) :
    (processRelation docId st r).stats.documents_processed =
      st.stats.documents_processed := by
  simp only [processRelation]
  split <;> rfl

/-- Folded concept processing keeps documents_processed. -/
theorem foldlConcepts_docsProcessed (docId : String) (l : List ConceptCand)
    (st : BuildState) :
    (l.foldl (processConcept docId) st).stats.documents_processed =
      st.stats.documents_processed := by
  induction l generalizing st with
  | nil => rfl
  | cons c cs ih =>
    rw [List.foldl_cons, ih, processConcept_docsProcessed]

/-- Folded relation processing keeps documents_processed. -/
theorem foldlRelations_docsProcessed (docId : String) (l : List RelationCand)
    (st : BuildState) :
    (l.foldl (processRelation docId) st).stats.documents_processed =
      st.stats.documents_processed := by
  induction l generalizing st with
  | nil => rfl
  | cons r rs ih =>
    rw [List.foldl_cons, ih, processRelation_docsProcessed]

/-- A document with content counts exactly once as processed. -/
theorem processDocument_documents_processed (st : BuildState) (d : JobDoc)
    (h : d.contentPresent = true) :
    (processDocument st d).stats.documents_processed =
      st.stats.documents_processed + 1 := by
  simp only [processDocument, h, if_true]
  rw [foldlRelations_docsProcessed, foldlConcepts_docsProcessed]

/-- A document whose extraction raises contributes only its document node
and the processed counter: the swallowed exception leaves no concepts and
no relations. -/
theorem processDocument_extract_error (st : BuildState) (d : JobDoc)
    (e : String) (h1 : d.contentPresent = true)
    (h2 : d.pipeline = .error e) :
    processDocument st d =
      { st with
        store := (createDocumentNode st.store d.docId).1,
        stats := { st.stats with
          documents_processed := st.stats.documents_processed + 1 } } := by
  simp [processDocument, h1, h2, extractConceptsAndRelations]

/-- C5 counterexample: a two-document job whose second document raises
inside extraction completes with documents_processed = 2 (the failing
document is still counted, because the extractor swallows the exception)
and with no error recorded on the sync record - the claimed
documents_processed = 1 and error message do not occur. -/
theorem build_extraction_swallowed_counterexample :
    (buildKnowledgeGraph (.ok [docOkW, docExtractFailW])
        GraphStore.empty).1.stats.documents_processed = 2 ∧
    (buildKnowledgeGraph (.ok [docOkW, docExtractFailW])
        GraphStore.empty).1.status = .completed ∧
    (buildKnowledgeGraph (.ok [docOkW, docExtractFailW])
        GraphStore.empty).1.error = none := by
  refine ⟨rfl, rfl, rfl⟩

/-- C5 amended: the build never aborts the batch and records no error on
the sync record.  A document failing before extraction (missing content)
is skipped: the build equals the build of the surviving document alone,
with documents_processed = 1 and stats of the successful document only.
A document whose extraction itself raises is caught inside the extractor,
contributes no concepts, relations or stat changes other than being
counted as processed (documents_processed = 2). -/
theorem build_partial_failure (g0 : GraphStore) (d1 d2 : JobDoc)
    (h1 : d1.contentPresent = true) :
    (d2.contentPresent = false →
      buildKnowledgeGraph (.ok [d1, d2]) g0 =
        buildKnowledgeGraph (.ok [d1]) g0 ∧
      (buildKnowledgeGraph (.ok [d1, d2]) g0).1.status = .completed ∧
      (buildKnowledgeGraph (.ok [d1, d2]) g0).1.error = none ∧
      (buildKnowledgeGraph (.ok [d1, d2]) g0).1.stats.documents_processed
        = 1) ∧
    (∀ e, d2.contentPresent = true → d2.pipeline = .error e →
      (buildKnowledgeGraph (.ok [d1, d2]) g0).1.status = .completed ∧
      (buildKnowledgeGraph (.ok [d1, d2]) g0).1.error = none ∧
      (buildKnowledgeGraph (.ok [d1, d2]) g0).1.stats.documents_processed
        = 2 ∧
      (buildKnowledgeGraph (.ok [d1, d2]) g0).1.stats.nodes_created =
        (buildKnowledgeGraph (.ok [d1]) g0).1.stats.nodes_created ∧
      (buildKnowledgeGraph (.ok [d1, d2]) g0).1.stats.edges_created =
        (buildKnowledgeGraph (.ok [d1]) g0).1.stats.edges_created ∧
      (buildKnowledgeGraph (.ok [d1, d2]) g0).1.stats.concepts_merged =
        (buildKnowledgeGraph (.ok [d1]) g0).1.stats.concepts_merged) := by
  constructor
  · intro hA
    have hskip : ∀ s : BuildState, processDocument s d2 = s :=
      fun s => processDocument_skip s d2 hA
    have heq : buildKnowledgeGraph (.ok [d1, d2]) g0 =
        buildKnowledgeGraph (.ok [d1]) g0 := by
      unfold buildKnowledgeGraph
      simp only [List.foldl_cons, List.foldl_nil, hskip]
    refine ⟨heq, rfl, rfl, ?_⟩
    rw [heq]
    show (updateGraphSync _ _ (some _) _).stats.documents_processed = 1
    simp only [updateGraphSync]
    rw [List.foldl_cons, List.foldl_nil,
      processDocument_documents_processed _ d1 h1]
  · intro e hB1 hB2
    have herr : ∀ s : BuildState, processDocument s d2 =
        { s with
          store := (createDocumentNode s.store d2.docId).1,
          stats := { s.stats with
            documents_processed := s.stats.documents_processed + 1 } } :=
      fun s => processDocument_extract_error s d2 e hB1 hB2
    refine ⟨rfl, rfl, ?_, ?_, ?_, ?_⟩ <;>
      simp only [buildKnowledgeGraph, updateGraphSync, List.foldl_cons,
        List.foldl_nil, herr]
    rw [processDocument_documents_processed _ d1 h1]

/-- Witness for C5 at concrete two-document jobs. -/
theorem build_partial_failure_witness :
    buildKnowledgeGraph (.ok [docOkW, docSkipW]) GraphStore.empty =
      buildKnowledgeGraph (.ok [docOkW]) GraphStore.empty ∧
    (buildKnowledgeGraph (.ok [docOkW, docSkipW])
        GraphStore.empty).1.stats.documents_processed = 1 ∧
    (buildKnowledgeGraph (.ok [docOkW, docExtractFailW])
        GraphStore.empty).1.stats.documents_processed = 2 :=
  ⟨((build_partial_failure GraphStore.empty docOkW docSkipW rfl).1 rfl).1,
   ((build_partial_failure GraphStore.empty docOkW docSkipW rfl).1 rfl).2.2.2,
   ((build_partial_failure GraphStore.empty docOkW docExtractFailW rfl).2
      "boom" rfl rfl).2.2.1⟩

/-! ### C8 - the GraphSync state machine -/

/-- C8 amended: during a build on a fresh sync record the status trace is
pending, then in_progress, then exactly one terminal update - completed
with the final stats on success, failed on an unhandled exception - with
every transition along the legal forward chain and no update after a
terminal state; the exception text is recorded on failure exactly when it
is non-empty (an empty exception message leaves the error field unset). -/
theorem sync_state_machine (docsResult : Except String (List JobDoc))
    (g0 : GraphStore) :
    List.Chain (fun a b => syncStepOk a b = true) SyncStatus.pending
      (((buildKnowledgeGraph docsResult g0).2.2).map (fun u => u.1)) ∧
    (((buildKnowledgeGraph docsResult g0).2.2).map (fun u => u.1) =
        [.in_progress, .completed] ∨
      ((buildKnowledgeGraph docsResult g0).2.2).map (fun u => u.1) =
        [.in_progress, .failed]) ∧
    syncTerminal (buildKnowledgeGraph docsResult g0).1.status = true ∧
    (∀ s ∈ (((buildKnowledgeGraph docsResult g0).2.2).map
        (fun u => u.1)).dropLast, syncTerminal s = false) ∧
    (∀ e, docsResult = .error e →
      (buildKnowledgeGraph docsResult g0).1.status = .failed ∧
      (buildKnowledgeGraph docsResult g0).1.error =
        (if e = "" then none else some e)) ∧
    (∀ docs, docsResult = .ok docs →
      (buildKnowledgeGraph docsResult g0).1.status = .completed ∧
      (buildKnowledgeGraph docsResult g0).1.error = none ∧
      (buildKnowledgeGraph docsResult g0).1.stats =
        (docs.foldl processDocument ⟨[], g0, ⟨0, 0, 0, 0⟩⟩).stats) := by
  cases docsResult with
  | error e =>
    refine ⟨?_, ?_, rfl, ?_, ?_, ?_⟩
    · simp [buildKnowledgeGraph, List.Chain, syncStepOk]
    · right
      rfl
    · intro s hs
      simp [buildKnowledgeGraph] at hs
      rw [hs]
      rfl
    · intro e' he
      cases he
      exact ⟨rfl, rfl⟩
    · intro docs hd
      cases hd
  | ok docs =>
    refine ⟨?_, ?_, rfl, ?_, ?_, ?_⟩
    · simp [buildKnowledgeGraph, List.Chain, syncStepOk]
    · left
      rfl
    · intro s hs
      simp [buildKnowledgeGraph] at hs
      rw [hs]
      rfl
    · intro e' he
      cases he
    · intro docs' hd
      cases hd
      exact ⟨rfl, rfl, rfl⟩

/-- C8 counterexample: an unhandled exception whose text is empty moves
the record to failed but captures no error text (the update drops falsy
error strings). -/
theorem sync_empty_error_counterexample :
    (buildKnowledgeGraph (.error "") GraphStore.empty).1.status = .failed ∧
    (buildKnowledgeGraph (.error "") GraphStore.empty).1.error = none :=
  ⟨rfl, rfl⟩

/-- Witness for C8 on both outcomes. -/
theorem sync_state_machine_witness :
    (buildKnowledgeGraph (.error "disk down") GraphStore.empty).1.status =
      .failed ∧
    (buildKnowledgeGraph (.error "disk down") GraphStore.empty).1.error =
      some "disk down" ∧
    (buildKnowledgeGraph (.ok [docOkW]) GraphStore.empty).1.status =
      .completed :=
  ⟨((sync_state_machine (.error "disk down") GraphStore.empty).2.2.2.2.1
      "disk down" rfl).1,
   by
    have h := ((sync_state_machine (.error "disk down")
      GraphStore.empty).2.2.2.2.1 "disk down" rfl).2
    simpa using h,
   ((sync_state_machine (.ok [docOkW]) GraphStore.empty).2.2.2.2.2
      [docOkW] rfl).1⟩

/-! ### C9 - the extractor never propagates exceptions -/

/-- C9: `extract_concepts_and_relations` is total over pipeline outcomes:
an internal exception is caught and yields ([], []), a successful
pipeline run is returned as is, and a document whose extraction failed
still flows normally through the build loop and is counted as processed. -/
theorem extractor_never_raises
    (p : Except String (List ConceptCand × List RelationCand)) :
    (∀ e, p = .error e → extractConceptsAndRelations p = ([], [])) ∧
    (∀ v, p = .ok v → extractConceptsAndRelations p = v) ∧
    (∀ (st : BuildState) (d : JobDoc) (e : String),
      d.contentPresent = true → d.pipeline = .error e →
      (processDocument st d).stats.documents_processed =
        st.stats.documents_processed + 1) := by
  refine ⟨?_, ?_, ?_⟩
  · intro e he
    rw [he]
    rfl
  · intro v hv
    rw [hv]
    rfl
  · intro st d e h1 h2
    exact processDocument_documents_processed st d h1

/-- Witness for C9 at a concrete failing pipeline. -/
theorem extractor_never_raises_witness :
    extractConceptsAndRelations (.error "spacy blew up") = ([], []) ∧
    (processDocument ⟨[], GraphStore.empty, ⟨0, 0, 0, 0⟩⟩
        docExtractFailW).stats.documents_processed = 1 :=
  ⟨(extractor_never_raises (.error "spacy blew up")).1 "spacy blew up" rfl,
   (extractor_never_raises docExtractFailW.pipeline).2.2
     ⟨[], GraphStore.empty, ⟨0, 0, 0, 0⟩⟩ docExtractFailW "boom" rfl rfl⟩

/-! ### C6 - the no-match fallback of the QA endpoint -/

/-- C6: when no graph concept matches the question terms, the endpoint
returns the fixed no-relevant-information answer with empty node, edge
and document evidence, is not an error, and appends exactly one QA log
entry with status ok. -/
theorem qa_no_match (logs : List QALogEntry) (qc : List String)
    (question : String) (graphData : GraphData) (store : NeoGraph)
    (h : ∀ n ∈ graphData.nodes, canonicalMatch qc n.label = false) :
    (askQuestion logs qc question graphData store).1.answer =
      noRelevantAnswer ∧
    (askQuestion logs qc question graphData store).1.node_ids = [] ∧
    (askQuestion logs qc question graphData store).1.edge_ids = [] ∧
    (askQuestion logs qc question graphData store).1.document_ids = [] ∧
    (askQuestion logs qc question graphData store).1.isError = false ∧
    (askQuestion logs qc question graphData store).2 =
      logs ++ [{ question := question,
                 answer_text := some noRelevantAnswer, status := "ok" }] ∧
    (askQuestion logs qc question graphData store).2.length =
      logs.length + 1 := by
  have hmatch : matchingNodes qc graphData = [] := by
    simp only [matchingNodes]
    rw [List.filter_eq_nil_iff]
    intro n hn
    simp [h n hn]
  have heq : askQuestion logs qc question graphData store =
      ({ answer := noRelevantAnswer, node_ids := [], edge_ids := [],
         document_ids := [], isError := false },
       logs ++ [{ question := question,
                  answer_text := some noRelevantAnswer, status := "ok" }]) := by
    by_cases hg : graphData.nodes = []
    · unfold askQuestion
      rw [if_pos hg]
    · unfold askQuestion
      rw [if_neg hg]
      have hans : answerQuestion qc question graphData =
          (noRelevantAnswer, [], []) := by
        unfold answerQuestion
        rw [hmatch]
        rfl
      rw [hans]
      rfl
  rw [heq]
  exact ⟨rfl, rfl, rfl, rfl, rfl, rfl, by simp⟩

/-- Witness for C6 at a concrete unmatched question. -/
theorem qa_no_match_witness :
    (askQuestion [] ["quantum"] "what about quantum?" qaNoMatchGraph
        emptyNeoGraph).1.answer = noRelevantAnswer ∧
    (askQuestion [] ["quantum"] "what about quantum?" qaNoMatchGraph
        emptyNeoGraph).2.length = 1 :=
  ⟨(qa_no_match [] ["quantum"] "what about quantum?" qaNoMatchGraph
      emptyNeoGraph (by decide)).1,
   (qa_no_match [] ["quantum"] "what about quantum?" qaNoMatchGraph
      emptyNeoGraph (by decide)).2.2.2.2.2.2⟩

/-! ### C7 - counting questions -/

/-- C7 counterexample: against a graph of N = 3 concepts and M = 2 edges,
asking how many concepts there are yields an answer reporting the single
matching concept - it contains neither 3 nor 2 - though the evidence node
list is indeed non-empty. -/
theorem count_question_counterexample :
    cxGraphData.nodes.length = 3 ∧ cxGraphData.edges.length = 2 ∧
    (answerQuestion ["how many concepts"] "How many concepts are there?"
        cxGraphData).1 =
      "There is 1 concept matching your query: concepts" ∧
    strContains (answerQuestion ["how many concepts"]
        "How many concepts are there?" cxGraphData).1 "3" = false ∧
    strContains (answerQuestion ["how many concepts"]
        "How many concepts are there?" cxGraphData).1 "2" = false ∧
    (answerQuestion ["how many concepts"] "How many concepts are there?"
        cxGraphData).2.1 ≠ [] := by
  refine ⟨rfl, rfl, rfl, rfl, rfl, by decide⟩

/-- C7 amended: a count question (contains "how many", no definition
keyword) with at least one matching concept is answered by the count
template over the matching nodes: the answer reports the number of
matching concepts (not the graph-wide concept or edge totals) and the
evidence node list - the matching nodes - is non-empty. -/
theorem count_question_answer (qc : List String) (question : String)
    (g : GraphData)
    (hdef : definitionWords.any
      (fun w => strContains (pyLower (pyLower question)) w) = false)
    (hcount : strContains (pyLower (pyLower question)) "how many" = true)
    (hm : matchingNodes qc g ≠ []) :
    answerQuestion qc question g =
      answerCountQuestion (matchingNodes qc g) g ∧
    (answerQuestion qc question g).2.1 ≠ [] ∧
    strContains (answerQuestion qc question g).1
      (toString (matchingNodes qc g).length) = true := by
  have heq : answerQuestion qc question g =
      answerCountQuestion (matchingNodes qc g) g := by
    unfold answerQuestion
    rw [if_neg hm]
    unfold generateAnswer
    simp only [definitionWords] at hdef
    simp only [definitionWords, countWords, hdef, hcount, Bool.false_eq_true,
      if_false, List.any_cons, Bool.true_or, if_true]
  have hev : (answerCountQuestion (matchingNodes qc g) g).2.1 ≠ [] := by
    cases hmn : matchingNodes qc g with
    | nil => exact absurd hmn hm
    | cons m rest =>
      cases rest with
      | nil => simp [answerCountQuestion]
      | cons m2 r2 => simp [answerCountQuestion]
  have hsub : strContains (answerCountQuestion (matchingNodes qc g) g).1
      (toString (matchingNodes qc g).length) = true := by
    cases hmn : matchingNodes qc g with
    | nil => exact absurd hmn hm
    | cons m rest =>
      cases rest with
      | nil =>
        have hn : toString ([m] : List GNode).length = "1" := by
          show toString (1 : Nat) = "1"
          decide
        have hc : (answerCountQuestion [m] g).1 =
            "There is 1 concept matching your query: " ++ m.label := rfl
        rw [hc, hn]
        unfold strContains
        rw [String.data_append]
        exact listContainsSub_append_right _ _ _ (by decide)
      | cons m2 r2 =>
        show strContains (answerCountQuestion (m :: m2 :: r2) g).1
          (toString (m :: m2 :: r2).length) = true
        by_cases h5 : (m :: m2 :: r2).length ≤ 5
        · have hc : (answerCountQuestion (m :: m2 :: r2) g).1 =
              "There are " ++ toString (m :: m2 :: r2).length ++
                " concepts matching your query" ++ ": " ++
                String.intercalate ", "
                  (((m :: m2 :: r2).take 5).map (fun n => n.label)) := by
            show (if (m :: m2 :: r2).length ≤ 5 then _ else _) = _
            rw [if_pos h5]
          rw [hc]
          unfold strContains
          simp only [String.data_append, List.append_assoc]
          exact listContainsSub_append_left _ _ _
            (listContainsSub_of_startsWith _ _ (listStartsWith_self _ _))
        · have hc : (answerCountQuestion (m :: m2 :: r2) g).1 =
              "There are " ++ toString (m :: m2 :: r2).length ++
                " concepts matching your query" ++ ". Some examples: " ++
                String.intercalate ", "
                  (((m :: m2 :: r2).take 5).map (fun n => n.label)) := by
            show (if (m :: m2 :: r2).length ≤ 5 then _ else _) = _
            rw [if_neg h5]
          rw [hc]
          unfold strContains
          simp only [String.data_append, List.append_assoc]
          exact listContainsSub_append_left _ _ _
            (listContainsSub_of_startsWith _ _ (listStartsWith_self _ _))
  exact ⟨heq, by rw [heq]; exact hev, by rw [heq]; exact hsub⟩

/-- Witness for C7 on a concrete two-match count question. -/
theorem count_question_answer_witness :
    (answerQuestion ["alpha"] "how many alpha items?" wGraphData).2.1 ≠ [] ∧
    strContains (answerQuestion ["alpha"] "how many alpha items?"
      wGraphData).1 "2" = true :=
  ⟨(count_question_answer ["alpha"] "how many alpha items?" wGraphData
      (by decide) (by decide) (by decide)).2.1,
   (count_question_answer ["alpha"] "how many alpha items?" wGraphData
      (by decide) (by decide) (by decide)).2.2⟩

/-! ### C10 - deduplication inside one document -/

/-- Appending a concept with an unseen canonical key preserves the
extraction invariant (seen keys cover emitted keys, emitted keys are
pairwise distinct, ids are the hash of their key). -/
theorem inv_extend (cs : List ConceptCand) (seen : List String)
    (c : ConceptCand)
    (h1 : ∀ x ∈ cs, x.canonical_key ∈ seen)
    (h2 : List.Pairwise (fun a b => a.canonical_key ≠ b.canonical_key) cs)
    (h3 : ∀ x ∈ cs, x.id = generateConceptId x.canonical_key)
    (hkey : c.canonical_key ∉ seen)
    (hid : c.id = generateConceptId c.canonical_key) :
    (∀ x ∈ cs ++ [c], x.canonical_key ∈ seen ++ [c.canonical_key]) ∧
    List.Pairwise (fun a b => a.canonical_key ≠ b.canonical_key)
      (cs ++ [c]) ∧
    (∀ x ∈ cs ++ [c], x.id = generateConceptId x.canonical_key) := by
  refine ⟨?_, ?_, ?_⟩
  · intro x hx
    rcases List.mem_append.mp hx with hx | hx
    · exact List.mem_append.mpr (Or.inl (h1 x hx))
    · simp only [List.mem_singleton] at hx
      subst hx
      simp
  · rw [List.pairwise_append]
    refine ⟨h2, by simp, ?_⟩
    intro a ha b hb
    simp only [List.mem_singleton] at hb
    subst hb
    intro hEq
    exact hkey (hEq ▸ h1 a ha)
  · intro x hx
    rcases List.mem_append.mp hx with hx | hx
    · exact h3 x hx
    · simp only [List.mem_singleton] at hx
      subst hx
      exact hid

/-- The entity phase preserves the extraction invariant. -/
theorem entityStep_inv (docId : String) (stopWords : List String)
    (acc : List ConceptCand × List String) (ent : TextSpan)
    (h1 : ∀ x ∈ acc.1, x.canonical_key ∈ acc.2)
    (h2 : List.Pairwise (fun a b => a.canonical_key ≠ b.canonical_key) acc.1)
    (h3 : ∀ x ∈ acc.1, x.id = generateConceptId x.canonical_key) :
    (∀ x ∈ (entityStep docId stopWords acc ent).1,
      x.canonical_key ∈ (entityStep docId stopWords acc ent).2) ∧
    List.Pairwise (fun a b => a.canonical_key ≠ b.canonical_key)
      (entityStep docId stopWords acc ent).1 ∧
    (∀ x ∈ (entityStep docId stopWords acc ent).1,
      x.id = generateConceptId x.canonical_key) := by
  unfold entityStep
  split
  · dsimp only
    split
    · rename_i hnot
      exact inv_extend acc.1 acc.2 _ h1 h2 h3 hnot rfl
    · exact ⟨h1, h2, h3⟩
  · exact ⟨h1, h2, h3⟩

/-- The noun-chunk phase preserves the extraction invariant. -/
theorem chunkStep_inv (docId : String) (stopWords : List String)
    (acc : List ConceptCand × List String) (chunk : TextSpan)
    (h1 : ∀ x ∈ acc.1, x.canonical_key ∈ acc.2)
    (h2 : List.Pairwise (fun a b => a.canonical_key ≠ b.canonical_key) acc.1)
    (h3 : ∀ x ∈ acc.1, x.id = generateConceptId x.canonical_key) :
    (∀ x ∈ (chunkStep docId stopWords acc chunk).1,
      x.canonical_key ∈ (chunkStep docId stopWords acc chunk).2) ∧
    List.Pairwise (fun a b => a.canonical_key ≠ b.canonical_key)
      (chunkStep docId stopWords acc chunk).1 ∧
    (∀ x ∈ (chunkStep docId stopWords acc chunk).1,
      x.id = generateConceptId x.canonical_key) := by
  unfold chunkStep
  split
  · dsimp only
    split
    · rename_i hcond
      exact inv_extend acc.1 acc.2 _ h1 h2 h3 hcond.1 rfl
    · exact ⟨h1, h2, h3⟩
  · exact ⟨h1, h2, h3⟩

/-- Folding the entity phase preserves the extraction invariant. -/
theorem entityFold_inv (docId : String) (stopWords : List String)
    (ents : List TextSpan) (acc : List ConceptCand × List String)
    (h1 : ∀ x ∈ acc.1, x.canonical_key ∈ acc.2)
    (h2 : List.Pairwise (fun a b => a.canonical_key ≠ b.canonical_key) acc.1)
    (h3 : ∀ x ∈ acc.1, x.id = generateConceptId x.canonical_key) :
    (∀ x ∈ (ents.foldl (entityStep docId stopWords) acc).1,
      x.canonical_key ∈ (ents.foldl (entityStep docId stopWords) acc).2) ∧
    List.Pairwise (fun a b => a.canonical_key ≠ b.canonical_key)
      (ents.foldl (entityStep docId stopWords) acc).1 ∧
    (∀ x ∈ (ents.foldl (entityStep docId stopWords) acc).1,
      x.id = generateConceptId x.canonical_key) := by
  induction ents generalizing acc with
  | nil => exact ⟨h1, h2, h3⟩
  | cons e es ih =>
    rw [List.foldl_cons]
    have hstep := entityStep_inv docId stopWords acc e h1 h2 h3
    exact ih _ hstep.1 hstep.2.1 hstep.2.2

/-- Folding the noun-chunk phase preserves the extraction invariant. -/
theorem chunkFold_inv (docId : String) (stopWords : List String)
    (chunks : List TextSpan) (acc : List ConceptCand × List String)
    (h1 : ∀ x ∈ acc.1, x.canonical_key ∈ acc.2)
    (h2 : List.Pairwise (fun a b => a.canonical_key ≠ b.canonical_key) acc.1)
    (h3 : ∀ x ∈ acc.1, x.id = generateConceptId x.canonical_key) :
    (∀ x ∈ (chunks.foldl (chunkStep docId stopWords) acc).1,
      x.canonical_key ∈ (chunks.foldl (chunkStep docId stopWords) acc).2) ∧
    List.Pairwise (fun a b => a.canonical_key ≠ b.canonical_key)
      (chunks.foldl (chunkStep docId stopWords) acc).1 ∧
    (∀ x ∈ (chunks.foldl (chunkStep docId stopWords) acc).1,
      x.id = generateConceptId x.canonical_key) := by
  induction chunks generalizing acc with
  | nil => exact ⟨h1, h2, h3⟩
  | cons c cs ih =>
    rw [List.foldl_cons]
    have hstep := chunkStep_inv docId stopWords acc c h1 h2 h3
    exact ih _ hstep.1 hstep.2.1 hstep.2.2

/-- The keyword phase preserves distinctness and the id contract. -/
theorem keywordPhase_inv (docId : String) (kws : List String)
    (cs : List ConceptCand) (seen : List String)
    (h1 : ∀ x ∈ cs, x.canonical_key ∈ seen)
    (h2 : List.Pairwise (fun a b => a.canonical_key ≠ b.canonical_key) cs)
    (h3 : ∀ x ∈ cs, x.id = generateConceptId x.canonical_key) :
    List.Pairwise (fun a b => a.canonical_key ≠ b.canonical_key)
      (keywordPhase docId kws cs seen) ∧
    (∀ x ∈ keywordPhase docId kws cs seen,
      x.id = generateConceptId x.canonical_key) := by
  induction kws generalizing cs seen with
  | nil => exact ⟨h2, h3⟩
  | cons kw rest ih =>
    unfold keywordPhase
    split
    · exact ⟨h2, h3⟩
    · dsimp only
      split
      · rename_i hnot
        have hext := inv_extend cs seen
          { id := generateConceptId (canonicalizeConcept kw), label := kw,
            canonical_key := canonicalizeConcept kw, ctype := "keyword",
            entity_label := "KEYWORD", doc_id := docId,
            span_start := -1, span_end := -1 } h1 h2 h3 hnot rfl
        exact ih _ _ hext.1 hext.2.1 hext.2.2
      · exact ih cs seen h1 h2 h3

/-- C10 amended: the concept list of one document has pairwise-distinct
canonical keys, every id is the truncated hash of its canonical key, and
the ids are pairwise distinct whenever the truncated hash is
collision-free on those keys (which the 16-hex-character truncation does
not guarantee in general). -/
theorem extract_concepts_distinct (stopWords : List String)
    (ents chunks : List TextSpan) (keywords : List String) (docId : String) :
    List.Pairwise (fun a b => a.canonical_key ≠ b.canonical_key)
      (extractConcepts stopWords ents chunks keywords docId) ∧
    (∀ c ∈ extractConcepts stopWords ents chunks keywords docId,
      c.id = generateConceptId c.canonical_key) ∧
    ((∀ a ∈ extractConcepts stopWords ents chunks keywords docId,
       ∀ b ∈ extractConcepts stopWords ents chunks keywords docId,
       generateConceptId a.canonical_key = generateConceptId b.canonical_key →
         a.canonical_key = b.canonical_key) →
      List.Pairwise (fun a b => a.id ≠ b.id)
        (extractConcepts stopWords ents chunks keywords docId)) := by
  have hent := entityFold_inv docId stopWords ents ([], [])
    (by simp) (by simp) (by simp)
  have hchunk := chunkFold_inv docId stopWords chunks
    (ents.foldl (entityStep docId stopWords) ([], []))
    hent.1 hent.2.1 hent.2.2
  have hkw := keywordPhase_inv docId keywords
    (chunks.foldl (chunkStep docId stopWords)
      (ents.foldl (entityStep docId stopWords) ([], []))).1
    (chunks.foldl (chunkStep docId stopWords)
      (ents.foldl (entityStep docId stopWords) ([], []))).2
    hchunk.1 hchunk.2.1 hchunk.2.2
  refine ⟨hkw.1, hkw.2, ?_⟩
  intro hinj
  have hpair : List.Pairwise
      (fun a b => a.canonical_key ≠ b.canonical_key)
      (extractConcepts stopWords ents chunks keywords docId) := hkw.1
  refine List.Pairwise.imp_of_mem ?_ hpair
  intro a b ha hb hne hid
  exact hne (hinj a ha b hb (by
    rw [← hkw.2 a ha, ← hkw.2 b hb, hid]))

/-- Witness for C10 on a concrete single-keyword document. -/
theorem extract_concepts_distinct_witness :
    List.Pairwise (fun a b => a.id ≠ b.id)
      (extractConcepts [] [] [] ["alpha"] "d1") :=
  (extract_concepts_distinct [] [] [] ["alpha"] "d1").2.2 (by
    intro a ha b hb _
    have h1 : a = b := by
      have hx : extractConcepts [] [] [] ["alpha"] "d1" =
          [{ id := generateConceptId "alpha", label := "alpha",
             canonical_key := "alpha", ctype := "keyword",
             entity_label := "KEYWORD", doc_id := "d1",
             span_start := -1, span_end := -1 }] := rfl
      rw [hx] at ha hb
      simp only [List.mem_singleton] at ha hb
      rw [ha, hb]
    rw [h1])

/-- Splitting an all-non-space character run yields that single word. -/
theorem pyWordsAux_nonspace (l : List Char) :
    ∀ acc : List Char, (∀ c ∈ l, isPySpace c = false) →
      pyWordsAux l acc = if acc ++ l = [] then [] else [⟨acc ++ l⟩] := by
  induction l with
  | nil =>
    intro acc _
    simp [pyWordsAux]
  | cons c rest ih =>
    intro acc h
    have hc : isPySpace c = false := h c (List.mem_cons_self _ _)
    unfold pyWordsAux
    simp only [hc, Bool.false_eq_true, if_false]
    rw [ih (acc ++ [c]) (fun x hx => h x (List.mem_cons_of_mem _ hx))]
    rw [if_neg (by simp), if_neg (by simp)]
    simp [List.append_assoc]

/-- The z-keys are fixed points of canonicalization. -/
theorem canonicalize_zKey (n : Nat) :
    canonicalizeConcept (zKey n) = zKey n := by
  have hlower : pyLower (zKey n) = zKey n := by
    show (⟨(List.replicate (n + 3) 'z').map Char.toLower⟩ : String) = _
    rw [List.map_replicate]
    rfl
  have hwords : pyWords (zKey n) = [zKey n] := by
    show pyWordsAux (List.replicate (n + 3) 'z') [] = _
    rw [pyWordsAux_nonspace _ [] (fun c hc => by
      rw [List.eq_of_mem_replicate hc]
      rfl)]
    rw [if_neg (by simp)]
    rfl
  unfold canonicalizeConcept
  rw [hlower, hwords]
  have hdet : stripLeadingDeterminer [zKey n] = [zKey n] := by
    show (if zKey n ∈ determiners ∧ ([] : List String) ≠ []
      then ([] : List String) else [zKey n]) = [zKey n]
    rw [if_neg (fun hcon => hcon.2 rfl)]
  rw [hdet]
  have hsuf : stripTrailingCorpSuffix [zKey n] = [zKey n] := by
    unfold stripTrailingCorpSuffix
    show (if zKey n ∈ corpSuffixes ∧ 2 ≤ ([zKey n] : List String).length
      then _ else _) = _
    rw [if_neg (fun hcon => by
      have := hcon.2
      simp at this)]
  rw [hsuf]
  rfl

/-- Distinct indices give distinct z-keys. -/
theorem zKey_inj (n m : Nat) (h : zKey n = zKey m) : n = m := by
  have hlen := congrArg (fun s : String => s.data.length) h
  simp only [zKey, List.length_replicate] at hlen
  omega

/-- The Fin-16 encoding of concept ids is faithful. -/
theorem genId_eq_of_idCode_eq (k1 k2 : String)
    (h : idCode k1 = idCode k2) :
    generateConceptId k1 = generateConceptId k2 := by
  have hl1 := generateConceptId_length k1
  have hl2 := generateConceptId_length k2
  have hdata : (generateConceptId k1).data = (generateConceptId k2).data := by
    apply List.ext_getElem (by rw [hl1, hl2])
    intro i hi1 hi2
    have hi : i < 16 := by rw [hl1] at hi1; exact hi1
    have hfun := congrFun h ⟨i, hi⟩
    unfold idCode at hfun
    rw [List.getD_eq_getElem _ '0' hi1, List.getD_eq_getElem _ '0' hi2]
      at hfun
    have hm1 : (generateConceptId k1).data[i] ∈ hexDigits.data :=
      generateConceptId_mem_hex _ _ (List.getElem_mem _)
    have hm2 : (generateConceptId k2).data[i] ∈ hexDigits.data :=
      generateConceptId_mem_hex _ _ (List.getElem_mem _)
    have hlt1 : hexDigits.data.indexOf (generateConceptId k1).data[i] < 16 :=
      List.indexOf_lt_length.mpr hm1
    have hlt2 : hexDigits.data.indexOf (generateConceptId k2).data[i] < 16 :=
      List.indexOf_lt_length.mpr hm2
    have hval := congrArg Fin.val hfun
    unfold hexIndexFin at hval
    simp only at hval
    rw [Nat.mod_eq_of_lt hlt1, Nat.mod_eq_of_lt hlt2] at hval
    exact (List.indexOf_inj hm1 hm2).mp hval
  calc generateConceptId k1 = ⟨(generateConceptId k1).data⟩ := rfl
    _ = ⟨(generateConceptId k2).data⟩ := by rw [hdata]
    _ = generateConceptId k2 := rfl

/-- Extraction over exactly two fresh keyword keys. -/
theorem extract_two_keywords (docId k1 k2 : String)
    (hne : canonicalizeConcept k1 ≠ canonicalizeConcept k2) :
    extractConcepts [] [] [] [k1, k2] docId =
      [{ id := generateConceptId (canonicalizeConcept k1), label := k1,
         canonical_key := canonicalizeConcept k1, ctype := "keyword",
         entity_label := "KEYWORD", doc_id := docId,
         span_start := -1, span_end := -1 },
       { id := generateConceptId (canonicalizeConcept k2), label := k2,
         canonical_key := canonicalizeConcept k2, ctype := "keyword",
         entity_label := "KEYWORD", doc_id := docId,
         span_start := -1, span_end := -1 }] := by
  show keywordPhase docId [k1, k2] [] [] = _
  unfold keywordPhase
  rw [if_neg (by simp)]
  dsimp only
  rw [if_pos (by simp)]
  unfold keywordPhase
  rw [if_neg (by simp)]
  dsimp only
  rw [if_pos (by
    simp only [List.nil_append, List.mem_singleton]
    exact Ne.symm hne)]
  rfl

/-- C10 counterexample: the parenthetical inference fails in principle -
ids are 16 hex characters, so infinitely many distinct canonical keys
share an id, and a document carrying two such colliding keywords gets two
concepts with distinct canonical keys but equal ids. -/
theorem extract_distinct_ids_counterexample :
    ¬ ∀ (stopWords : List String) (ents chunks : List TextSpan)
        (keywords : List String) (docId : String),
        List.Pairwise (fun a b => a.id ≠ b.id)
          (extractConcepts stopWords ents chunks keywords docId) := by
  intro hall
  obtain ⟨n, m, hnm, hIdx⟩ :=
    Finite.exists_ne_map_eq_of_infinite (fun j => idCode (zKey j))
  have hid : generateConceptId (zKey n) = generateConceptId (zKey m) :=
    genId_eq_of_idCode_eq _ _ hIdx
  have hkey : canonicalizeConcept (zKey n) ≠ canonicalizeConcept (zKey m) := by
    rw [canonicalize_zKey, canonicalize_zKey]
    intro h
    exact hnm (zKey_inj n m h)
  have h2 := hall [] [] [] [zKey n, zKey m] "d"
  rw [extract_two_keywords "d" (zKey n) (zKey m) hkey] at h2
  rw [List.pairwise_cons] at h2
  have hne := h2.1 _ (List.mem_singleton_self _)
  apply hne
  show generateConceptId (canonicalizeConcept (zKey n)) =
    generateConceptId (canonicalizeConcept (zKey m))
  rw [canonicalize_zKey, canonicalize_zKey, hid]
